import Mathlib

/-!
Verification of the invoice PDF tool (`pdf_generator.py`).

The development shallowly embeds the program's core over `List Char`
(Python `str` values) and association lists in insertion order (Python
`dict` values, whose keys are unique).  Python values occurring in records
are modelled by `PyValue`; the effects of the program (the template file
read, the filesystem, the font configuration, the PDF engine result) are
passed in explicitly as data, as the spec's design notes prescribe for the
font state.

String-rewriting functions (`re.sub` with a literal pattern, `str.replace`,
the per-key placeholder pass, style-block stripping, placeholder scanning)
are defined with an explicit fuel argument equal to the input length so
that they are structurally recursive and the kernel can evaluate them on
closed inputs; fuel-irrelevance lemmas recover the natural unfolding
equations, which all further proofs use.
-/

/-- Convenience: the character list of a string literal. -/
def S (s : String) : List Char := s.data

/-- Python values that can occur in a loaded record: `None`, a string,
a float NaN (the only float the claims need), or an int. -/
inductive PyValue where
  | none : PyValue
  | str : List Char → PyValue
  | nan : PyValue
  | int : Int → PyValue
deriving DecidableEq, Repr

/-- A record is a Python dict: an association list in insertion order with
(as in any Python dict) pairwise distinct keys. -/
abbrev Record := List (List Char × PyValue)

/-- Python truthiness for the modelled values: `None`, `''` and `0` are
falsy; NaN is truthy. -/
def pyTruthy : PyValue → Bool
  | .none => false
  | .str s => !s.isEmpty
  | .nan => true
  | .int n => n != 0

/-- Python `str()` on the modelled values: `str(None) = "None"`,
`str(float('nan')) = "nan"`. -/
def pyStr : PyValue → List Char
  | .none => S "None"
  | .str s => s
  | .nan => S "nan"
  | .int n => S (toString n)

/-- Dict lookup on an insertion-ordered association list. -/
def pyLookup {α : Type} (k : List Char) : List (List Char × α) → Option α
  | [] => Option.none
  | kv :: d => if kv.1 = k then Option.some kv.2 else pyLookup k d

/-- Python `dict.get(k)` with default `None`. -/
def pyGet (k : List Char) (r : Record) : PyValue :=
  (pyLookup k r).getD PyValue.none

/-- Python `a or b`: the first operand if truthy, else the second. -/
def pyOr (a b : PyValue) : PyValue :=
  if pyTruthy a then a else b

/-- Python `k in d` for a dict. -/
def pyHasKey (k : List Char) (r : Record) : Bool :=
  r.any (fun kv => kv.1 = k)

/-! ### Generic literal replacement

`pyReplaceF` models both `re.sub` with a (re.escaped) literal pattern and
`str.replace`: scan left to right, replace each non-overlapping occurrence,
never rescanning replacement text.  All patterns the program uses are
nonempty, which the guard records. -/

/-- Fueled literal find-and-replace (leftmost, non-overlapping,
replacements not rescanned), as `str.replace` and literal `re.sub` do. -/
def pyReplaceF (pat repl : List Char) : Nat → List Char → List Char
  | 0, l => l
  | _ + 1, [] => []
  | f + 1, c :: r =>
    if pat ≠ [] ∧ pat.isPrefixOf (c :: r) then
      repl ++ pyReplaceF pat repl f (r.drop (pat.length - 1))
    else
      c :: pyReplaceF pat repl f r

/-- Literal find-and-replace at adequate fuel. -/
def pyReplace (pat repl l : List Char) : List Char :=
  pyReplaceF pat repl l.length l

theorem pyReplaceF_fuel {pat repl : List Char} :
    ∀ f₁ f₂ l, l.length ≤ f₁ → l.length ≤ f₂ →
      pyReplaceF pat repl f₁ l = pyReplaceF pat repl f₂ l := by
  intro f₁
  induction f₁ with
  | zero =>
    intro f₂ l h₁ _
    have hl : l = [] := List.eq_nil_of_length_eq_zero (Nat.le_zero.mp h₁)
    subst hl
    cases f₂ <;> rfl
  | succ f ih =>
    intro f₂ l h₁ h₂
    cases l with
    | nil => cases f₂ <;> rfl
    | cons c r =>
      cases f₂ with
      | zero => simp at h₂
      | succ g =>
        have hr : r.length ≤ f := by simp at h₁; omega
        have hg : r.length ≤ g := by simp at h₂; omega
        have hd : (r.drop (pat.length - 1)).length ≤ r.length := by
          rw [List.length_drop]; omega
        simp only [pyReplaceF]
        by_cases hp : pat ≠ [] ∧ pat.isPrefixOf (c :: r)
        · simp only [if_pos hp]
          rw [ih g _ (le_trans hd hr) (le_trans hd hg)]
        · simp only [if_neg hp]
          rw [ih g r hr hg]

@[simp] theorem pyReplace_nil (pat repl : List Char) :
    pyReplace pat repl [] = [] := rfl

theorem pyReplace_cons (pat repl : List Char) (c : Char) (r : List Char) :
    pyReplace pat repl (c :: r) =
      if pat ≠ [] ∧ pat.isPrefixOf (c :: r) then
        repl ++ pyReplace pat repl (r.drop (pat.length - 1))
      else
        c :: pyReplace pat repl r := by
  have hd : (r.drop (pat.length - 1)).length ≤ r.length := by
    rw [List.length_drop]; omega
  show pyReplaceF pat repl (r.length + 1) (c :: r) = _
  simp only [pyReplaceF]
  by_cases hp : pat ≠ [] ∧ pat.isPrefixOf (c :: r)
  · simp only [if_pos hp]
    congr 1
    exact pyReplaceF_fuel r.length _ _ hd le_rfl
  · simp only [if_neg hp]
    rfl

/-! ### The per-key placeholder pass

`re.sub(r'\{' + re.escape(key) + r'(?::[^}]*)?\}', lambda m: str(value), t)`
replaces, left to right and non-overlapping, every occurrence of
`{key}` and of `{key:fmt}` (where `fmt` is a maximal run of characters
other than `}`), the replacement text never being rescanned for the same
key.  Because the format part is greedy up to the first following `}`,
the match is deterministic, which the recursion below mirrors. -/

/-- Scan to the first `}` and return what follows it, if any
(the deterministic residue of the regex fragment `(?::[^}]*)?\}`). -/
def dropToBrace : List Char → Option (List Char)
  | [] => Option.none
  | c :: r => if c = '\x7d' then Option.some r else dropToBrace r

theorem dropToBrace_length {l r : List Char} (h : dropToBrace l = Option.some r) :
    r.length < l.length := by
  induction l with
  | nil => simp [dropToBrace] at h
  | cons c t ih =>
    by_cases hc : c = '\x7d'
    · simp [dropToBrace, hc] at h
      subst h; simp
    · simp [dropToBrace, hc] at h
      exact Nat.lt_trans (ih h) (by simp)

/-- Continuation of a key match after the literal key: the pattern
`(?::[^}]*)?\}` must follow — either an immediate `}`, or `:` and a
(greedy, `}`-free) format part closed by the next `}`. -/
def keyMatchAfter : List Char → Option (List Char)
  | [] => Option.none
  | d :: r2 =>
    if d = '\x7d' then Option.some r2
    else if d = ':' then dropToBrace r2
    else Option.none

/-- Attempted match of the pattern `\{key(?::[^}]*)?\}` just after its
opening `{`: `r` must start with the literal key, followed by
`keyMatchAfter`.  Returns the text following the whole match. -/
def keyMatch (key : List Char) (r : List Char) : Option (List Char) :=
  if key.isPrefixOf r then keyMatchAfter (r.drop key.length)
  else Option.none

theorem keyMatchAfter_length {l rest : List Char}
    (h : keyMatchAfter l = Option.some rest) : rest.length < l.length := by
  cases l with
  | nil => exact absurd h (by simp [keyMatchAfter])
  | cons d r2 =>
    by_cases h1 : d = '\x7d'
    · simp only [keyMatchAfter, if_pos h1] at h
      have hre : r2 = rest := by simpa using h
      subst hre
      simp
    · by_cases h2 : d = ':'
      · simp only [keyMatchAfter, if_neg h1, if_pos h2] at h
        have := dropToBrace_length h
        simp
        omega
      · simp only [keyMatchAfter, if_neg h1, if_neg h2] at h
        exact absurd h (by simp)

theorem keyMatch_length {key r rest : List Char}
    (h : keyMatch key r = Option.some rest) : rest.length < r.length := by
  unfold keyMatch at h
  by_cases hp : key.isPrefixOf r
  · rw [if_pos hp] at h
    have h1 := keyMatchAfter_length h
    have h2 : (r.drop key.length).length ≤ r.length := by
      rw [List.length_drop]; omega
    omega
  · rw [if_neg hp] at h
    exact absurd h (by simp)

/-- Fueled single-key substitution pass. -/
def substKeyF (key value : List Char) : Nat → List Char → List Char
  | 0, l => l
  | _ + 1, [] => []
  | f + 1, c :: r =>
    if c = '\x7b' then
      (keyMatch key r).elim (c :: substKeyF key value f r)
        (fun rest => value ++ substKeyF key value f rest)
    else
      c :: substKeyF key value f r

/-- Single-key substitution pass at adequate fuel. -/
def substKey (key value l : List Char) : List Char :=
  substKeyF key value l.length l

theorem substKeyF_fuel {key value : List Char} :
    ∀ f₁ f₂ l, l.length ≤ f₁ → l.length ≤ f₂ →
      substKeyF key value f₁ l = substKeyF key value f₂ l := by
  intro f₁
  induction f₁ with
  | zero =>
    intro f₂ l h₁ _
    have hl : l = [] := List.eq_nil_of_length_eq_zero (Nat.le_zero.mp h₁)
    subst hl
    cases f₂ <;> rfl
  | succ f ih =>
    intro f₂ l h₁ h₂
    cases l with
    | nil => cases f₂ <;> rfl
    | cons c r =>
      cases f₂ with
      | zero => simp at h₂
      | succ g =>
        have hr : r.length ≤ f := by simp at h₁; omega
        have hg : r.length ≤ g := by simp at h₂; omega
        simp only [substKeyF]
        by_cases hc : c = '\x7b'
        · simp only [if_pos hc]
          cases hm : keyMatch key r with
          | none => simp only [hm, Option.elim_none]; rw [ih g r hr hg]
          | some rest =>
            have hrl := keyMatch_length hm
            simp only [hm, Option.elim_some]
            rw [ih g rest (by omega) (by omega)]
        · simp only [if_neg hc]
          rw [ih g r hr hg]

@[simp] theorem substKey_nil (key value : List Char) :
    substKey key value [] = [] := rfl

theorem substKey_cons (key value : List Char) (c : Char) (r : List Char) :
    substKey key value (c :: r) =
      if c = '\x7b' then
        (keyMatch key r).elim (c :: substKey key value r)
          (fun rest => value ++ substKey key value rest)
      else
        c :: substKey key value r := by
  show substKeyF key value (r.length + 1) (c :: r) = _
  simp only [substKeyF]
  by_cases hc : c = '\x7b'
  · simp only [if_pos hc]
    cases hm : keyMatch key r with
    | none => simp only [hm, Option.elim_none]; rfl
    | some rest =>
      have hrl := keyMatch_length hm
      simp only [hm, Option.elim_some]
      rw [substKeyF_fuel r.length rest.length rest (by omega) le_rfl]
      rfl
  · simp only [if_neg hc]
    rfl

/-! ### Template data preparation (`render_template` lines 199-223)

The working dict `template_data` copies every record field with `None` and
float NaN normalised to the empty string, then assigns the derived
`tax_row` and `total_row` entries (a Python dict assignment overwrites an
existing key in place, else appends). -/

/-- Display form used by the copy loop: `None` and NaN become `''`,
everything else its `str()`. -/
def displayValue : PyValue → List Char
  | .none => []
  | .str s => s
  | .nan => []
  | .int n => S (toString n)

/-- Python dict assignment `d[k] = v` on an insertion-ordered
association list. -/
def dictSet (d : List (List Char × List Char)) (k v : List Char) :
    List (List Char × List Char) :=
  if d.any (fun kv => kv.1 = k) then
    d.map (fun kv => if kv.1 = k then (k, v) else kv)
  else
    d ++ [(k, v)]

/-- The derived `tax_row` value: an HTML amount row with the raw
(`str`-converted, unnormalised) tax value and the fixed currency suffix,
when `'tax' in data and data.get('tax') is not None`; else `''`. -/
def taxRowValue (data : Record) : List Char :=
  if pyHasKey (S "tax") data ∧ pyGet (S "tax") data ≠ PyValue.none then
    S "<div class=\"amount-row\"><span>НДС:</span><span>" ++
      pyStr (pyGet (S "tax") data) ++ S " руб.</span></div>"
  else []

/-- The derived `total_row` value, by the same rule as `taxRowValue`. -/
def totalRowValue (data : Record) : List Char :=
  if pyHasKey (S "total") data ∧ pyGet (S "total") data ≠ PyValue.none then
    S "<div class=\"amount-row total\"><span>Итого:</span><span>" ++
      pyStr (pyGet (S "total") data) ++ S " руб.</span></div>"
  else []

/-- The merged mapping `template_data`: normalised copy of the record,
then the two derived entries assigned (overriding same-named fields). -/
def buildTemplateData (data : Record) : List (List Char × List Char) :=
  dictSet
    (dictSet (data.map (fun kv => (kv.1, displayValue kv.2)))
      (S "tax_row") (taxRowValue data))
    (S "total_row") (totalRowValue data)

/-- The per-key substitution loop
`for key, value in template_data.items(): rendered = re.sub(...)`. -/
def applySubsts (td : List (List Char × List Char)) (t : List Char) :
    List Char :=
  td.foldl (fun acc kv => substKey kv.1 kv.2 acc) t

/-! ### Style-block stripping (diagnostic pass, lines 248-249)

`re.sub(r'<style[^>]*>.*?</style>', '', rendered, flags=DOTALL|IGNORECASE)`.
The regex is deterministic: literal `<style` (case-insensitive), greedy
run to the first `>`, lazy run to the first case-insensitive `</style>`.
Case-insensitivity is modelled on ASCII letters, which is all the pattern
contains. -/

/-- Case-insensitive match of one lowercase pattern character `p`:
the text character is `p` itself or its ASCII uppercase counterpart. -/
def charCI (p c : Char) : Bool :=
  (c == p) || (97 ≤ p.toNat && p.toNat ≤ 122 && c.toNat + 32 == p.toNat)

/-- Case-insensitive prefix test against a lowercase literal pattern. -/
def ciStarts : List Char → List Char → Bool
  | [], _ => true
  | _ :: _, [] => false
  | p :: ps, c :: cs => charCI p c && ciStarts ps cs

/-- Scan to the first `>` and return what follows (the residue of the
greedy `[^>]*>`). -/
def dropToGt : List Char → Option (List Char)
  | [] => Option.none
  | c :: r => if c = '>' then Option.some r else dropToGt r

theorem dropToGt_length {l r : List Char} (h : dropToGt l = Option.some r) :
    r.length < l.length := by
  induction l with
  | nil => simp [dropToGt] at h
  | cons c t ih =>
    by_cases hc : c = '>'
    · simp [dropToGt, hc] at h
      subst h; simp
    · simp [dropToGt, hc] at h
      exact Nat.lt_trans (ih h) (by simp)

/-- Scan to the first case-insensitive `</style>` and return what follows
(the residue of the lazy `.*?</style>`). -/
def dropToCloseStyle : List Char → Option (List Char)
  | [] => Option.none
  | c :: r =>
    if ciStarts (S "</style>") (c :: r) then Option.some (r.drop 7)
    else dropToCloseStyle r

theorem dropToCloseStyle_length {l r : List Char}
    (h : dropToCloseStyle l = Option.some r) : r.length < l.length := by
  induction l with
  | nil => simp [dropToCloseStyle] at h
  | cons c t ih =>
    by_cases hc : ciStarts (S "</style>") (c :: t)
    · simp [dropToCloseStyle, hc] at h
      subst h
      simp [List.length_drop]
      omega
    · simp [dropToCloseStyle, hc] at h
      exact Nat.lt_trans (ih h) (by simp)

/-- Attempted match of `<style[^>]*>.*?</style>` at the current position;
returns the text after the matched block. -/
def tryStyleBlock (l : List Char) : Option (List Char) :=
  if ciStarts (S "<style") l then
    (dropToGt (l.drop 6)).bind dropToCloseStyle
  else Option.none

theorem tryStyleBlock_length {l rest : List Char}
    (h : tryStyleBlock l = Option.some rest) : rest.length < l.length := by
  unfold tryStyleBlock at h
  by_cases hs : ciStarts (S "<style") l
  · rw [if_pos hs] at h
    cases hg : dropToGt (l.drop 6) with
    | none => rw [hg] at h; exact absurd h (by simp)
    | some m =>
      rw [hg] at h
      have h1 := dropToGt_length hg
      have h2 := dropToCloseStyle_length h
      have h3 : (l.drop 6).length ≤ l.length := by
        rw [List.length_drop]; omega
      omega
  · rw [if_neg hs] at h
    exact absurd h (by simp)

/-- Fueled style-block removal (leftmost, repeated). -/
def stripStyleF : Nat → List Char → List Char
  | 0, l => l
  | _ + 1, [] => []
  | f + 1, c :: r =>
    (tryStyleBlock (c :: r)).elim (c :: stripStyleF f r)
      (fun rest => stripStyleF f rest)

/-- Style-block removal at adequate fuel. -/
def stripStyle (l : List Char) : List Char :=
  stripStyleF l.length l

theorem stripStyleF_fuel :
    ∀ f₁ f₂ l, l.length ≤ f₁ → l.length ≤ f₂ →
      stripStyleF f₁ l = stripStyleF f₂ l := by
  intro f₁
  induction f₁ with
  | zero =>
    intro f₂ l h₁ _
    have hl : l = [] := List.eq_nil_of_length_eq_zero (Nat.le_zero.mp h₁)
    subst hl
    cases f₂ <;> rfl
  | succ f ih =>
    intro f₂ l h₁ h₂
    cases l with
    | nil => cases f₂ <;> rfl
    | cons c r =>
      cases f₂ with
      | zero => simp at h₂
      | succ g =>
        have hr : r.length ≤ f := by simp at h₁; omega
        have hg : r.length ≤ g := by simp at h₂; omega
        simp only [stripStyleF]
        cases hm : tryStyleBlock (c :: r) with
        | none => simp only [hm, Option.elim_none]; rw [ih g r hr hg]
        | some rest =>
          have hrl := tryStyleBlock_length hm
          simp only [hm, Option.elim_some]
          rw [ih g rest (by simp at hrl; omega) (by simp at hrl; omega)]

@[simp] theorem stripStyle_nil : stripStyle [] = [] := rfl

theorem stripStyle_cons (c : Char) (r : List Char) :
    stripStyle (c :: r) =
      (tryStyleBlock (c :: r)).elim (c :: stripStyle r)
        (fun rest => stripStyle rest) := by
  show stripStyleF (r.length + 1) (c :: r) = _
  simp only [stripStyleF]
  cases hm : tryStyleBlock (c :: r) with
  | none => simp only [hm, Option.elim_none]; rfl
  | some rest =>
    have hrl := tryStyleBlock_length hm
    simp only [hm, Option.elim_some]
    exact stripStyleF_fuel r.length rest.length rest (by simp at hrl; omega) le_rfl

/-! ### Placeholder scanning (diagnostic pass, line 250)

`re.findall(r'\{([a-zA-Z_][a-zA-Z0-9_]*)\}', non_style_content)`. -/

/-- First character of a Python identifier, `[a-zA-Z_]`. -/
def isIdentStart (c : Char) : Bool := c.isAlpha || c == '_'

/-- Later character of a Python identifier, `[a-zA-Z0-9_]`. -/
def isIdentChar (c : Char) : Bool := c.isAlphanum || c == '_'

/-- Close of an identifier placeholder: the next character must be `}`. -/
def identClose (name : List Char) : List Char → Option (List Char × List Char)
  | [] => Option.none
  | c :: r3 => if c = '\x7d' then Option.some (name, r3) else Option.none

/-- Attempted match of `([a-zA-Z_][a-zA-Z0-9_]*)\}` just after a `{`:
returns the captured name and the text after the closing `}`. -/
def identMatch : List Char → Option (List Char × List Char)
  | [] => Option.none
  | d :: r2 =>
    if isIdentStart d then
      identClose (d :: r2.takeWhile isIdentChar) (r2.dropWhile isIdentChar)
    else Option.none

theorem identClose_length {name l n rest : List Char}
    (h : identClose name l = Option.some (n, rest)) : rest.length < l.length := by
  cases l with
  | nil => exact absurd h (by simp [identClose])
  | cons c r3 =>
    by_cases hc : c = '\x7d'
    · simp [identClose, hc] at h
      rw [← h.2]
      simp
    · simp [identClose, hc] at h

theorem identMatch_length {l n rest : List Char}
    (h : identMatch l = Option.some (n, rest)) : rest.length < l.length := by
  cases l with
  | nil => exact absurd h (by simp [identMatch])
  | cons d r2 =>
    by_cases hd : isIdentStart d
    · simp only [identMatch, if_pos hd] at h
      have h1 := identClose_length h
      have h2 : (r2.dropWhile isIdentChar).length ≤ r2.length :=
        List.IsSuffix.length_le (List.dropWhile_suffix isIdentChar)
      simp
      omega
    · simp [identMatch, hd] at h

/-- Fueled placeholder scan. -/
def findPlaceholdersF : Nat → List Char → List (List Char)
  | 0, _ => []
  | _ + 1, [] => []
  | f + 1, c :: r =>
    if c = '\x7b' then
      (identMatch r).elim (findPlaceholdersF f r)
        (fun p => p.1 :: findPlaceholdersF f p.2)
    else
      findPlaceholdersF f r

/-- Placeholder scan at adequate fuel. -/
def findPlaceholders (l : List Char) : List (List Char) :=
  findPlaceholdersF l.length l

theorem findPlaceholdersF_fuel :
    ∀ f₁ f₂ l, l.length ≤ f₁ → l.length ≤ f₂ →
      findPlaceholdersF f₁ l = findPlaceholdersF f₂ l := by
  intro f₁
  induction f₁ with
  | zero =>
    intro f₂ l h₁ _
    have hl : l = [] := List.eq_nil_of_length_eq_zero (Nat.le_zero.mp h₁)
    subst hl
    cases f₂ <;> rfl
  | succ f ih =>
    intro f₂ l h₁ h₂
    cases l with
    | nil => cases f₂ <;> rfl
    | cons c r =>
      cases f₂ with
      | zero => simp at h₂
      | succ g =>
        have hr : r.length ≤ f := by simp at h₁; omega
        have hg : r.length ≤ g := by simp at h₂; omega
        simp only [findPlaceholdersF]
        by_cases hc : c = '\x7b'
        · simp only [if_pos hc]
          cases hm : identMatch r with
          | none => simp only [hm, Option.elim_none]; rw [ih g r hr hg]
          | some p =>
            have hrl := identMatch_length (show identMatch r = Option.some (p.1, p.2) by rw [hm])
            simp only [hm, Option.elim_some]
            rw [ih g p.2 (by omega) (by omega)]
        · simp only [if_neg hc]
          rw [ih g r hr hg]

@[simp] theorem findPlaceholders_nil : findPlaceholders [] = [] := rfl

theorem findPlaceholders_cons (c : Char) (r : List Char) :
    findPlaceholders (c :: r) =
      if c = '\x7b' then
        (identMatch r).elim (findPlaceholders r)
          (fun p => p.1 :: findPlaceholders p.2)
      else
        findPlaceholders r := by
  show findPlaceholdersF (r.length + 1) (c :: r) = _
  simp only [findPlaceholdersF]
  by_cases hc : c = '\x7b'
  · simp only [if_pos hc]
    cases hm : identMatch r with
    | none =>
      simp only [hm, Option.elim_none]
      exact findPlaceholdersF_fuel r.length r.length r le_rfl le_rfl
    | some p =>
      have hrl := identMatch_length (show identMatch r = Option.some (p.1, p.2) by rw [hm])
      simp only [hm, Option.elim_some]
      rw [findPlaceholdersF_fuel r.length p.2.length p.2 (by omega) le_rfl]
      rfl
  · simp only [if_neg hc]
    exact findPlaceholdersF_fuel r.length r.length r le_rfl le_rfl

/-! ### The full rendering pipeline (`render_template`, lines 193-263) -/

/-- Sentinel marker substituted for literal `{{`. -/
def sentO : List Char := S "\x00OPEN\x00"

/-- Sentinel marker substituted for literal `}}`. -/
def sentC : List Char := S "\x00CLOSE\x00"

/-- The rendering body on a successfully read template: protect escaped
braces with sentinels, run the per-key pass for every merged-mapping
entry in insertion order, then restore the sentinels. -/
def render_body (template : List Char) (data : Record) : List Char :=
  let td := buildTemplateData data
  let r1 := pyReplace (S "\x7b\x7b") sentO template
  let r2 := pyReplace (S "\x7d\x7d") sentC r1
  let r3 := applySubsts td r2
  let r4 := pyReplace sentO (S "\x7b\x7b") r3
  pyReplace sentC (S "\x7d\x7d") r4

/-- Python's `set(...)` of scanned names, modelled as a duplicate-free
list (the set's iteration order is unspecified; membership is faithful). -/
def dedupKeep : List (List Char) → List (List Char)
  | [] => []
  | x :: xs => if x ∈ xs then dedupKeep xs else x :: dedupKeep xs

/-- The diagnostic pass: strip style blocks, scan for `{identifier}`
shapes and keep (as a duplicate-free collection, modelled as a list whose
membership matches Python's set) those not present in the merged mapping. -/
def unresolvedPlaceholders (rendered : List Char)
    (td : List (List Char × List Char)) : List (List Char) :=
  (dedupKeep (findPlaceholders (stripStyle rendered))).filter
    (fun p => !(td.any (fun kv => kv.1 = p)))

/-- Result of `render_template`: the rendered text and the reported
unresolved placeholders. -/
structure RenderResult where
  rendered : List Char
  unresolved : List (List Char)
deriving DecidableEq, Repr

/-- `render_template(template_path, data)`.  The file read is passed in as
an `Except`: `.ok` carries the template text, `.error` a read failure.  On
a read failure the `except` handler executes `return template` with the
local `template` never assigned, so the function raises
`UnboundLocalError` to its caller (modelled as `.error`); any failure
after the read is absorbed.  In this pure embedding the post-read body is
total, so a successful read always yields `.ok`. -/
def render_template (readResult : Except (List Char) (List Char))
    (data : Record) : Except (List Char) RenderResult :=
  match readResult with
  | .error _ =>
    .error (S "UnboundLocalError: cannot access local variable template")
  | .ok template =>
    .ok { rendered := render_body template data,
          unresolved := unresolvedPlaceholders (render_body template data)
            (buildTemplateData data) }

/-! ### `generate_pdf` (lines 266-376)

The HTML style-injection phase (lines 269-328) is a pure string
transformation; the startup font registration state is abstracted as an
explicit `FontConfig` (per the spec's design note on the global font
state).  The write phase (lines 331-371) acts on an explicit filesystem
modelled as a path-to-bytes association list, with permission failures and
the PDF engine outcome passed in as data. -/

/-- Python substring test `pat in s`. -/
def containsSub (pat : List Char) : List Char → Bool
  | [] => pat.isEmpty
  | c :: r => pat.isPrefixOf (c :: r) || containsSub pat r

/-- The startup font state: the registered Cyrillic-capable font path
(`CYRILLIC_FONT_PATH`, `None` or a nonempty path string), whether that
file exists, and whether the platform is Windows. -/
structure FontConfig where
  path : Option (List Char)
  pathExists : Bool
  isWindows : Bool

/-- The `file://` URL for the font path: backslashes to slashes, and on
Windows additionally `C:/` to `/C/` (lines 274-280). -/
def fontUrl (fc : FontConfig) (p : List Char) : List Char :=
  if fc.isWindows then
    S "file://" ++ pyReplace (S "C:/") (S "/C/") (pyReplace (S "\\") (S "/") p)
  else
    S "file://" ++ pyReplace (S "\\") (S "/") p

/-- Literal segment of the source f-string. -/
def ffcSeg1 : List Char :=
  S "\n            @font-face \x7b\n                font-family: \"Arial\";\n                src: url(\""

/-- Literal segment of the source f-string. -/
def ffcSeg2 : List Char :=
  S "\");\n            \x7d\n            @font-face \x7b\n                font-family: \"sans-serif\";\n                src: url(\""

/-- Literal segment of the source f-string. -/
def ffcSeg3 : List Char :=
  S "\");\n            \x7d\n            "

/-- Literal segment of the source f-string. -/
def stSeg1 : List Char :=
  S "<style>\n                "

/-- Literal segment of the source f-string. -/
def stSeg2 : List Char :=
  S "\n                @page \x7b\n                    size: A4;\n                    margin: 2cm;\n                \x7d\n                * \x7b\n                    font-family: "

/-- Literal segment of the source f-string. -/
def stSeg3 : List Char :=
  S " !important;\n                \x7d\n                body \x7b\n                    font-size: 12pt;\n                \x7d\n            </style>"

/-- Literal segment of the source f-string. -/
def foSeg1 : List Char :=
  S "<style>"

/-- Literal segment of the source f-string. -/
def foSeg2 : List Char :=
  S "* \x7b font-family: "

/-- Literal segment of the source f-string. -/
def foSeg3 : List Char :=
  S " !important; \x7d</style>"

/-- `font_face_css` (lines 270-291): two `@font-face` rules pointing at the
registered font, or empty when no font was registered or its file is
missing. -/
def font_face_css (fc : FontConfig) : List Char :=
  match fc.path with
  | Option.some p =>
    if fc.pathExists then
      ffcSeg1 ++ fontUrl fc p ++ ffcSeg2 ++ fontUrl fc p ++ ffcSeg3
    else []
  | Option.none => []

/-- `font_family` (lines 293-298). -/
def font_family (fc : FontConfig) : List Char :=
  if fc.path.isSome then S "Arial, Helvetica, sans-serif"
  else S "Arial, sans-serif"

/-- The full default stylesheet `style_tag` (lines 302-314): font faces,
A4 page with 2cm margins, universal font family, 12pt body text. -/
def style_tag (fc : FontConfig) : List Char :=
  stSeg1 ++ font_face_css fc ++ stSeg2 ++ font_family fc ++ stSeg3

/-- The reduced `font_override` block (line 324) used when the HTML
already has a style block. -/
def font_override (fc : FontConfig) : List Char :=
  foSeg1 ++ font_face_css fc ++ foSeg2 ++ font_family fc ++ foSeg3

/-- The style-injection phase of `generate_pdf` (lines 300-328): inject
the full default stylesheet when neither `'<style>'` nor `'<STYLE>'`
occurs, else only the font override; placed before `</head>`/`</HEAD>`,
or after `<body>`/`<BODY>`, or prepended (full stylesheet only). -/
def injectStyles (fc : FontConfig) (html : List Char) : List Char :=
  if !(containsSub (S "<style>") html) && !(containsSub (S "<STYLE>") html) then
    if containsSub (S "</head>") html || containsSub (S "</HEAD>") html then
      pyReplace (S "</HEAD>") (style_tag fc ++ S "</HEAD>")
        (pyReplace (S "</head>") (style_tag fc ++ S "</head>") html)
    else if containsSub (S "<body>") html || containsSub (S "<BODY>") html then
      pyReplace (S "<BODY>") (S "<BODY>" ++ style_tag fc)
        (pyReplace (S "<body>") (S "<body>" ++ style_tag fc) html)
    else
      style_tag fc ++ html
  else
    if containsSub (S "</head>") html || containsSub (S "</HEAD>") html then
      pyReplace (S "</HEAD>") (font_override fc ++ S "</HEAD>")
        (pyReplace (S "</head>") (font_override fc ++ S "</head>") html)
    else if containsSub (S "<body>") html || containsSub (S "<BODY>") html then
      pyReplace (S "<BODY>") (S "<BODY>" ++ font_override fc)
        (pyReplace (S "<body>") (S "<body>" ++ font_override fc) html)
    else
      html

/-- A filesystem: a path-to-bytes association list. -/
structure FileSystem where
  files : List (List Char × List Char)
deriving DecidableEq, Repr

/-- `path.exists()`. -/
def fsExists (p : List Char) (fs : FileSystem) : Bool :=
  fs.files.any (fun f => f.1 = p)

/-- `path.unlink()`. -/
def fsRemove (p : List Char) (fs : FileSystem) : FileSystem :=
  ⟨fs.files.filter (fun f => !(f.1 = p))⟩

/-- Creating/writing the file at `p` with the given bytes. -/
def fsWrite (p bytes : List Char) (fs : FileSystem) : FileSystem :=
  ⟨(fsRemove p fs).files ++ [(p, bytes)]⟩

/-- Content of the file at `p`, if present. -/
def fsLookup (p : List Char) (fs : FileSystem) : Option (List Char) :=
  pyLookup p fs.files

/-- Number of directory entries at path `p`. -/
def fsCount (p : List Char) (fs : FileSystem) : Nat :=
  (fs.files.filter (fun f => f.1 = p)).length

/-- The raised errors of the write phase. -/
inductive PdfError where
  | removalDenied
  | writeDenied
  | engineError (msg : List Char)
deriving DecidableEq, Repr

/-- Outcome of the write phase: the resulting filesystem and the raised
error, if any. -/
structure PdfRunOutcome where
  fs : FileSystem
  error : Option PdfError
deriving DecidableEq, Repr

/-- The `open(output_path, 'w+b')` / `pisa.CreatePDF` part (lines
340-371): opening truncates/creates the file; an engine error raises
(the partially written file is modelled as empty); a permission failure
on open raises after reporting the likely causes. -/
def generate_pdf_write (fs1 : FileSystem) (path : List Char)
    (writePermitted : Bool) (engine : Except (List Char) (List Char)) :
    PdfRunOutcome :=
  if writePermitted then
    match engine with
    | .ok bytes =>
      { fs := fsWrite path bytes fs1, error := Option.none }
    | .error m =>
      { fs := fsWrite path [] fs1,
        error := Option.some (PdfError.engineError m) }
  else
    { fs := fs1, error := Option.some PdfError.writeDenied }

/-- The write phase of `generate_pdf` (lines 331-371): if a file exists at
the output path it is unlinked first; a `PermissionError` on the unlink
reports and raises, leaving the filesystem unchanged; then the PDF is
produced and streamed to the path. -/
def generate_pdf_fs (fs : FileSystem) (path : List Char)
    (unlinkPermitted writePermitted : Bool)
    (engine : Except (List Char) (List Char)) : PdfRunOutcome :=
  if fsExists path fs then
    if unlinkPermitted then
      generate_pdf_write (fsRemove path fs) path writePermitted engine
    else
      { fs := fs, error := Option.some PdfError.removalDenied }
  else
    generate_pdf_write fs path writePermitted engine

/-- The output path for an invoice id (`main`, lines 539-540), relative to
the base directory: `output/invoice_<id>.pdf`. -/
def invoice_output_path (invoice_id : List Char) : List Char :=
  S "output/invoice_" ++ invoice_id ++ S ".pdf"

/-! ### The record selector (lines 161-190) -/

/-- The identifier fallback chain of `find_record_by_invoice_id`
(lines 181-187): `invoice_id or invoiceId or invoice or id or ID`,
each absent key contributing `None`. -/
def invoiceIdField (r : Record) : PyValue :=
  pyOr (pyGet (S "invoice_id") r)
    (pyOr (pyGet (S "invoiceId") r)
      (pyOr (pyGet (S "invoice") r)
        (pyOr (pyGet (S "id") r) (pyGet (S "ID") r))))

/-- `find_record_by_invoice_id(data, invoice_id)` (lines 178-190): the
first record whose chain value satisfies
`str(invoice_id_field) == str(invoice_id)`. -/
def find_record_by_invoice_id : List Record → List Char → Option Record
  | [], _ => Option.none
  | r :: rest, q =>
    if pyStr (invoiceIdField r) = q then Option.some r
    else find_record_by_invoice_id rest q

/-! ### Toolkit: prefix and substring lemmas -/

theorem isPrefixOf_cons_eq (a b : Char) (as bs : List Char) :
    (a :: as).isPrefixOf (b :: bs) = ((a == b) && as.isPrefixOf bs) := rfl

theorem isPrefixOf_cons_ne {b : Char} (a : Char) (as bs : List Char)
    (h : b ≠ a) : (a :: as).isPrefixOf (b :: bs) = false := by
  rw [isPrefixOf_cons_eq, beq_eq_false_iff_ne.mpr (fun hab => h hab.symm)]
  simp

theorem isPrefixOf_refl_append :
    ∀ (l r : List Char), l.isPrefixOf (l ++ r) = true
  | [], _ => by simp [List.isPrefixOf]
  | c :: t, r => by
    rw [List.cons_append, isPrefixOf_cons_eq, isPrefixOf_refl_append t r]
    simp

theorem isPrefixOf_false_of_mem {p : Char} :
    ∀ {pat y : List Char}, p ∈ pat → (∀ c ∈ y, c ≠ p) →
      pat.isPrefixOf y = false := by
  intro pat
  induction pat with
  | nil => intro y hp _; exact absurd hp (by simp)
  | cons a as ih =>
    intro y hp hy
    cases y with
    | nil => rfl
    | cons b bs =>
      rw [isPrefixOf_cons_eq]
      rcases List.mem_cons.mp hp with hpa | hpas
      · have hb : b ≠ a := hpa ▸ hy b (by simp)
        rw [beq_eq_false_iff_ne.mpr (fun hab => hb hab.symm)]
        simp
      · rw [ih hpas (fun c hc => hy c (by simp [hc]))]
        simp

theorem isPrefixOf_append_of_le :
    ∀ {pat t : List Char} (y : List Char), pat.length ≤ t.length →
      pat.isPrefixOf (t ++ y) = pat.isPrefixOf t := by
  intro pat
  induction pat with
  | nil => intro t y _; cases t <;> simp [List.isPrefixOf]
  | cons a as ih =>
    intro t y hlen
    cases t with
    | nil => simp at hlen
    | cons b bs =>
      rw [List.cons_append, isPrefixOf_cons_eq, isPrefixOf_cons_eq,
        ih y (by simp at hlen; omega)]

@[simp] theorem containsSub_nil (pat : List Char) :
    containsSub pat [] = pat.isEmpty := rfl

theorem containsSub_cons (pat : List Char) (c : Char) (r : List Char) :
    containsSub pat (c :: r) =
      (pat.isPrefixOf (c :: r) || containsSub pat r) := rfl

theorem containsSub_of_isPrefixOf {pat t : List Char}
    (h : pat.isPrefixOf t = true) : containsSub pat t = true := by
  cases t with
  | nil =>
    cases pat with
    | nil => rfl
    | cons a as => exact absurd h (by simp [List.isPrefixOf])
  | cons c r => rw [containsSub_cons, h]; simp

theorem containsSub_append_right {pat r : List Char} (x : List Char)
    (h : containsSub pat r = true) : containsSub pat (x ++ r) = true := by
  induction x with
  | nil => simpa using h
  | cons c x' ih =>
    rw [List.cons_append, containsSub_cons, ih]
    simp

theorem containsSub_here (pat x y : List Char) :
    containsSub pat (x ++ (pat ++ y)) = true :=
  containsSub_append_right x (containsSub_of_isPrefixOf (isPrefixOf_refl_append pat y))

theorem containsSub_false_of_mem {p : Char} {pat : List Char} (hp : p ∈ pat) :
    ∀ {y : List Char}, (∀ c ∈ y, c ≠ p) → containsSub pat y = false := by
  intro y
  induction y with
  | nil =>
    intro _
    rcases pat with _ | ⟨a, as⟩
    · exact absurd hp (by simp)
    · rfl
  | cons c r ih =>
    intro hy
    rw [containsSub_cons, isPrefixOf_false_of_mem hp hy,
      ih (fun d hd => hy d (by simp [hd]))]
    rfl

theorem containsSub_pass (p : Char) (pt x r : List Char)
    (hx : ∀ c ∈ x, c ≠ p) :
    containsSub (p :: pt) (x ++ r) = containsSub (p :: pt) r := by
  induction x with
  | nil => rfl
  | cons c x' ih =>
    rw [List.cons_append, containsSub_cons,
      isPrefixOf_cons_ne p pt _ (hx c (by simp)),
      ih (fun d hd => hx d (by simp [hd]))]
    rfl

/-- No-crossing-start certificate: no match of `p :: pt` can begin inside
`s`, whatever follows `s` (long-enough suffixes decide the prefix test on
their own; a shorter suffix could only host the start of a match if it
were itself a prefix of the pattern). -/
def noStart (p : Char) (pt : List Char) : List Char → Bool
  | [] => true
  | c :: r =>
    (if (p :: pt).length ≤ (c :: r).length then !((p :: pt).isPrefixOf (c :: r))
     else !((c :: r).isPrefixOf (p :: pt))) && noStart p pt r

theorem isPrefixOf_trans_short :
    ∀ {t pat y : List Char}, t.length < pat.length →
      pat.isPrefixOf (t ++ y) = true → t.isPrefixOf pat = true := by
  intro t
  induction t with
  | nil => intro pat y _ _; cases pat <;> simp [List.isPrefixOf]
  | cons b bs ih =>
    intro pat y hlen hp
    cases pat with
    | nil => simp at hlen
    | cons a as =>
      rw [List.cons_append, isPrefixOf_cons_eq] at hp
      rcases Bool.and_eq_true_iff.mp hp with ⟨hab, hrest⟩
      rw [isPrefixOf_cons_eq]
      have hba : (b == a) = true := by
        rw [beq_iff_eq] at hab ⊢
        exact hab.symm
      rw [hba, ih (by simp at hlen; omega) hrest]
      rfl

theorem containsSub_false_of_noStart {p : Char} {pt : List Char} :
    ∀ {s y : List Char}, noStart p pt s = true →
      containsSub (p :: pt) y = false →
      containsSub (p :: pt) (s ++ y) = false := by
  intro s
  induction s with
  | nil => intro y _ hy; simpa using hy
  | cons c r ih =>
    intro y hs hy
    have hs' : noStart p pt r = true := by
      have := hs
      simp only [noStart, Bool.and_eq_true] at this
      exact this.2
    have hhead :
        (if (p :: pt).length ≤ (c :: r).length
         then !((p :: pt).isPrefixOf (c :: r))
         else !((c :: r).isPrefixOf (p :: pt))) = true := by
      have := hs
      simp only [noStart, Bool.and_eq_true] at this
      exact this.1
    rw [List.cons_append, containsSub_cons]
    have htail : containsSub (p :: pt) (r ++ y) = false := ih hs' hy
    by_cases hlen : (p :: pt).length ≤ (c :: r).length
    · rw [if_pos hlen] at hhead
      have hpre : (p :: pt).isPrefixOf (c :: r) = false := by
        cases hip : (p :: pt).isPrefixOf (c :: r) <;> simp [hip] at hhead ⊢
      have hfull : (p :: pt).isPrefixOf ((c :: r) ++ y) = false := by
        rw [isPrefixOf_append_of_le y hlen, hpre]
      rw [List.cons_append] at hfull
      rw [hfull, htail]
      rfl
    · rw [if_neg hlen] at hhead
      have hshort : (c :: r).isPrefixOf (p :: pt) = false := by
        cases hip : (c :: r).isPrefixOf (p :: pt) <;> simp [hip] at hhead ⊢
      have hfull : (p :: pt).isPrefixOf ((c :: r) ++ y) = false := by
        cases hip : (p :: pt).isPrefixOf ((c :: r) ++ y) with
        | false => rfl
        | true =>
          have := isPrefixOf_trans_short (by omega) hip
          rw [hshort] at this
          exact absurd this (by simp)
      rw [List.cons_append] at hfull
      rw [hfull, htail]
      rfl

/-! ### Toolkit: `pyReplace` behaviour -/

theorem pyReplace_pass (p : Char) (pt repl x r : List Char)
    (hx : ∀ c ∈ x, c ≠ p) :
    pyReplace (p :: pt) repl (x ++ r) = x ++ pyReplace (p :: pt) repl r := by
  induction x with
  | nil => rfl
  | cons c x' ih =>
    have hcond : ¬((p :: pt) ≠ [] ∧
        (p :: pt).isPrefixOf (c :: (x' ++ r)) = true) := by
      rw [isPrefixOf_cons_ne p pt _ (hx c (by simp))]
      simp
    rw [List.cons_append, pyReplace_cons, if_neg hcond,
      ih (fun d hd => hx d (by simp [hd]))]
    rfl

theorem pyReplace_id (p : Char) (pt repl x : List Char)
    (hx : ∀ c ∈ x, c ≠ p) : pyReplace (p :: pt) repl x = x := by
  have h := pyReplace_pass p pt repl x [] hx
  simpa using h

theorem pyReplace_head (p : Char) (pt repl r : List Char) :
    pyReplace (p :: pt) repl ((p :: pt) ++ r) =
      repl ++ pyReplace (p :: pt) repl r := by
  have hcond : (p :: pt) ≠ [] ∧
      (p :: pt).isPrefixOf (p :: (pt ++ r)) = true := by
    constructor
    · simp
    · rw [← List.cons_append]
      exact isPrefixOf_refl_append (p :: pt) r
  rw [List.cons_append, pyReplace_cons, if_pos hcond]
  congr 2
  show List.drop ((p :: pt).length - 1) (pt ++ r) = r
  simp [List.drop_left]

theorem pyReplace_no_occ {pat repl t : List Char}
    (h : containsSub pat t = false) : pyReplace pat repl t = t := by
  induction t with
  | nil => rfl
  | cons c r ih =>
    rw [containsSub_cons] at h
    have h1 : pat.isPrefixOf (c :: r) = false := by
      cases hip : pat.isPrefixOf (c :: r) <;> simp [hip] at h ⊢
    have h2 : containsSub pat r = false := by
      cases hcs : containsSub pat r <;> simp [hcs, h1] at h ⊢
    rw [pyReplace_cons, if_neg (by rw [h1]; simp), ih h2]

/-! ### Toolkit: `substKey` and `applySubsts` behaviour -/

theorem substKey_pass (k v x r : List Char) (hx : ∀ c ∈ x, c ≠ '\x7b') :
    substKey k v (x ++ r) = x ++ substKey k v r := by
  induction x with
  | nil => rfl
  | cons c x' ih =>
    rw [List.cons_append, substKey_cons, if_neg (hx c (by simp)),
      ih (fun d hd => hx d (by simp [hd]))]
    rfl

theorem substKey_id (k v x : List Char) (hx : ∀ c ∈ x, c ≠ '\x7b') :
    substKey k v x = x := by
  have h := substKey_pass k v x [] hx
  simpa using h

theorem substKey_match {k r rest : List Char} (v : List Char)
    (h : keyMatch k r = Option.some rest) :
    substKey k v ('\x7b' :: r) = v ++ substKey k v rest := by
  rw [substKey_cons, if_pos rfl, h, Option.elim_some]

theorem substKey_nomatch {k r : List Char} (v : List Char)
    (h : keyMatch k r = Option.none) :
    substKey k v ('\x7b' :: r) = '\x7b' :: substKey k v r := by
  rw [substKey_cons, if_pos rfl, h, Option.elim_none]

theorem keyMatch_exact (k y : List Char) :
    keyMatch k (k ++ '\x7d' :: y) = Option.some y := by
  unfold keyMatch
  rw [if_pos (isPrefixOf_refl_append k _), List.drop_left]
  simp [keyMatchAfter]

theorem dropToBrace_pass (f y : List Char) (hf : ∀ c ∈ f, c ≠ '\x7d') :
    dropToBrace (f ++ '\x7d' :: y) = Option.some y := by
  induction f with
  | nil => simp [dropToBrace]
  | cons c f' ih =>
    have hc : c ≠ '\x7d' := hf c (by simp)
    rw [List.cons_append]
    simp only [dropToBrace, if_neg hc]
    exact ih (fun d hd => hf d (by simp [hd]))

theorem keyMatch_fmt (k f y : List Char) (hf : ∀ c ∈ f, c ≠ '\x7d') :
    keyMatch k (k ++ ':' :: (f ++ '\x7d' :: y)) = Option.some y := by
  unfold keyMatch
  rw [if_pos (isPrefixOf_refl_append k _), List.drop_left]
  simp only [keyMatchAfter]
  simp only [if_true, if_false, reduceCtorEq, reduceIte]
  exact dropToBrace_pass f y hf

theorem keyMatch_none_of_not_isPrefixOf {k r : List Char}
    (h : k.isPrefixOf r = false) : keyMatch k r = Option.none := by
  unfold keyMatch
  rw [if_neg (by simp [h])]

theorem applySubsts_cons (kv : List Char × List Char)
    (td : List (List Char × List Char)) (t : List Char) :
    applySubsts (kv :: td) t = applySubsts td (substKey kv.1 kv.2 t) := rfl

theorem applySubsts_id (td : List (List Char × List Char)) (t : List Char)
    (ht : ∀ c ∈ t, c ≠ '\x7b') : applySubsts td t = t := by
  induction td with
  | nil => rfl
  | cons kv td' ih =>
    rw [applySubsts_cons, substKey_id kv.1 kv.2 t ht]
    exact ih

/-! ### Toolkit: association-list lemmas for the merged mapping -/

@[simp] theorem pyLookup_nil {α : Type} (k : List Char) :
    pyLookup k ([] : List (List Char × α)) = Option.none := rfl

theorem pyLookup_cons {α : Type} (k : List Char) (kv : List Char × α)
    (d : List (List Char × α)) :
    pyLookup k (kv :: d) =
      if kv.1 = k then Option.some kv.2 else pyLookup k d := rfl

theorem pyLookup_of_any_eq_false {α : Type} {k : List Char}
    {d : List (List Char × α)}
    (h : d.any (fun kv => kv.1 = k) = false) : pyLookup k d = Option.none := by
  induction d with
  | nil => rfl
  | cons kv d' ih =>
    simp only [List.any_cons, Bool.or_eq_false_iff, decide_eq_false_iff_not] at h
    rw [pyLookup_cons, if_neg h.1]
    exact ih (by simp [h.2])

theorem pyLookup_append_right {α : Type} {k : List Char}
    {d : List (List Char × α)} (e : List (List Char × α))
    (h : pyLookup k d = Option.none) :
    pyLookup k (d ++ e) = pyLookup k e := by
  induction d with
  | nil => rfl
  | cons kv d' ih =>
    rw [pyLookup_cons] at h
    by_cases hk : kv.1 = k
    · rw [if_pos hk] at h; simp at h
    · rw [if_neg hk] at h
      rw [List.cons_append, pyLookup_cons, if_neg hk]
      exact ih h

theorem pyLookup_map_set {k v : List Char}
    (d : List (List Char × List Char)) :
    pyLookup k (d.map (fun kv => if kv.1 = k then (k, v) else kv)) =
      (pyLookup k d).map (fun _ => v) := by
  induction d with
  | nil => rfl
  | cons kv d' ih =>
    by_cases hk : kv.1 = k
    · rw [List.map_cons, if_pos hk, pyLookup_cons, if_pos rfl,
        pyLookup_cons, if_pos hk]
      rfl
    · rw [List.map_cons, if_neg hk, pyLookup_cons, if_neg hk,
        pyLookup_cons, if_neg hk]
      exact ih

theorem pyLookup_map_set_other {k k' v : List Char} (h : k' ≠ k)
    (d : List (List Char × List Char)) :
    pyLookup k' (d.map (fun kv => if kv.1 = k then (k, v) else kv)) =
      pyLookup k' d := by
  induction d with
  | nil => rfl
  | cons kv d' ih =>
    by_cases hk : kv.1 = k
    · rw [List.map_cons, if_pos hk, pyLookup_cons,
        if_neg (fun he => h he.symm), pyLookup_cons,
        if_neg (fun he => h ((hk.symm.trans he).symm)), ih]
    · rw [List.map_cons, if_neg hk, pyLookup_cons, pyLookup_cons]
      by_cases hk' : kv.1 = k'
      · rw [if_pos hk', if_pos hk']
      · rw [if_neg hk', if_neg hk', ih]

theorem pyLookup_append_single_other {k k' v : List Char} (h : k' ≠ k)
    (d : List (List Char × List Char)) :
    pyLookup k' (d ++ [(k, v)]) = pyLookup k' d := by
  induction d with
  | nil =>
    show pyLookup k' [(k, v)] = Option.none
    rw [pyLookup_cons, if_neg (fun he => h he.symm)]
    rfl
  | cons kv d' ih =>
    rw [List.cons_append, pyLookup_cons, pyLookup_cons]
    by_cases hk : kv.1 = k'
    · rw [if_pos hk, if_pos hk]
    · rw [if_neg hk, if_neg hk, ih]

theorem any_isSome_pyLookup {α : Type} {k : List Char}
    {d : List (List Char × α)}
    (h : d.any (fun kv => kv.1 = k) = true) :
    ∃ w, pyLookup k d = Option.some w := by
  induction d with
  | nil => simp at h
  | cons kv d' ih =>
    by_cases hk : kv.1 = k
    · exact ⟨kv.2, by rw [pyLookup_cons, if_pos hk]⟩
    · simp only [List.any_cons, Bool.or_eq_true, decide_eq_true_eq] at h
      rcases h with h1 | h2
      · exact absurd h1 hk
      · rcases ih h2 with ⟨w, hw⟩
        exact ⟨w, by rw [pyLookup_cons, if_neg hk]; exact hw⟩

theorem pyLookup_dictSet_self (d : List (List Char × List Char))
    (k v : List Char) : pyLookup k (dictSet d k v) = Option.some v := by
  unfold dictSet
  by_cases h : d.any (fun kv => kv.1 = k) = true
  · rw [if_pos h, pyLookup_map_set]
    rcases any_isSome_pyLookup h with ⟨w, hw⟩
    rw [hw]
    rfl
  · rw [if_neg h,
      pyLookup_append_right _ (pyLookup_of_any_eq_false (Bool.eq_false_iff.mpr h))]
    rw [pyLookup_cons, if_pos rfl]

theorem pyLookup_dictSet_other {k k' : List Char} (h : k' ≠ k)
    (d : List (List Char × List Char)) (v : List Char) :
    pyLookup k' (dictSet d k v) = pyLookup k' d := by
  unfold dictSet
  by_cases hany : d.any (fun kv => kv.1 = k) = true
  · rw [if_pos hany, pyLookup_map_set_other h]
  · rw [if_neg hany, pyLookup_append_single_other h]

theorem pyLookup_map_display {k : List Char} {d : Record} :
    pyLookup k (d.map (fun kv => (kv.1, displayValue kv.2))) =
      (pyLookup k d).map displayValue := by
  induction d with
  | nil => rfl
  | cons kv d' ih =>
    simp only [List.map_cons]
    rw [pyLookup_cons, pyLookup_cons]
    by_cases hk : kv.1 = k
    · rw [if_pos hk, if_pos hk]
      rfl
    · rw [if_neg hk, if_neg hk]
      exact ih

/-! ### Shared facts about the merged mapping's derived entries -/

theorem any_of_pyLookup {α : Type} {k : List Char} {w : α}
    {d : List (List Char × α)} (h : pyLookup k d = Option.some w) :
    d.any (fun kv => kv.1 = k) = true := by
  induction d with
  | nil => simp at h
  | cons kv d' ih =>
    rw [pyLookup_cons] at h
    by_cases hk : kv.1 = k
    · simp [List.any_cons, hk]
    · rw [if_neg hk] at h
      simp [List.any_cons, ih h]

/-- The raw fragment built for a present tax value (line 215). -/
def taxFragment (t : List Char) : List Char :=
  S "<div class=\"amount-row\"><span>НДС:</span><span>" ++ t ++
    S " руб.</span></div>"

/-- The raw fragment built for a present total value (line 221). -/
def totalFragment (t : List Char) : List Char :=
  S "<div class=\"amount-row total\"><span>Итого:</span><span>" ++ t ++
    S " руб.</span></div>"

theorem taxRowValue_of_some {data : Record} {v : PyValue}
    (hl : pyLookup (S "tax") data = Option.some v) (hv : v ≠ PyValue.none) :
    taxRowValue data = taxFragment (pyStr v) := by
  unfold taxRowValue taxFragment
  rw [if_pos]
  · unfold pyGet
    rw [hl]
    rfl
  · constructor
    · exact any_of_pyLookup hl
    · unfold pyGet
      rw [hl]
      exact hv

theorem taxRowValue_of_absent {data : Record}
    (h : pyLookup (S "tax") data = Option.none ∨
      pyLookup (S "tax") data = Option.some PyValue.none) :
    taxRowValue data = [] := by
  unfold taxRowValue
  rw [if_neg]
  intro hand
  rcases h with h | h
  · rcases any_isSome_pyLookup
      (show (data.any fun kv => kv.1 = S "tax") = true from hand.1) with ⟨w, hw⟩
    rw [h] at hw
    exact absurd hw (by simp)
  · exact hand.2 (by unfold pyGet; rw [h]; rfl)

theorem totalRowValue_of_some {data : Record} {v : PyValue}
    (hl : pyLookup (S "total") data = Option.some v) (hv : v ≠ PyValue.none) :
    totalRowValue data = totalFragment (pyStr v) := by
  unfold totalRowValue totalFragment
  rw [if_pos]
  · unfold pyGet
    rw [hl]
    rfl
  · constructor
    · exact any_of_pyLookup hl
    · unfold pyGet
      rw [hl]
      exact hv

theorem totalRowValue_of_absent {data : Record}
    (h : pyLookup (S "total") data = Option.none ∨
      pyLookup (S "total") data = Option.some PyValue.none) :
    totalRowValue data = [] := by
  unfold totalRowValue
  rw [if_neg]
  intro hand
  rcases h with h | h
  · rcases any_isSome_pyLookup
      (show (data.any fun kv => kv.1 = S "total") = true from hand.1) with ⟨w, hw⟩
    rw [h] at hw
    exact absurd hw (by simp)
  · exact hand.2 (by unfold pyGet; rw [h]; rfl)

theorem buildTemplateData_tax_row (data : Record) :
    pyLookup (S "tax_row") (buildTemplateData data) =
      Option.some (taxRowValue data) := by
  unfold buildTemplateData
  rw [pyLookup_dictSet_other (by decide), pyLookup_dictSet_self]

theorem buildTemplateData_total_row (data : Record) :
    pyLookup (S "total_row") (buildTemplateData data) =
      Option.some (totalRowValue data) := by
  unfold buildTemplateData
  rw [pyLookup_dictSet_self]

theorem buildTemplateData_plain {k : List Char} (data : Record)
    (h1 : k ≠ S "tax_row") (h2 : k ≠ S "total_row") :
    pyLookup k (buildTemplateData data) =
      (pyLookup k data).map displayValue := by
  unfold buildTemplateData
  rw [pyLookup_dictSet_other h2, pyLookup_dictSet_other h1,
    pyLookup_map_display]

/-! ### Claim C1 -/

/-- C1: the claim says `render_template` never raises to its caller, even
when the template file read fails.  In fact, when the read fails the
`except` handler executes `return template` with the local `template`
never assigned, so an `UnboundLocalError` propagates out of
`render_template`: the code raises on that path (a slip relative to the
handler's evident intent of returning the original template text). -/
theorem c1_render_template_read_failure_raises
    (e : List Char) (data : Record) :
    render_template (Except.error e) data =
      Except.error
        (S "UnboundLocalError: cannot access local variable template") := rfl

/-! ### Claim C5 -/

/-- C5: for every record, the merged mapping binds `tax_row` to the HTML
fragment containing the tax value's string and the fixed currency suffix
when the record has a non-null `tax` field, and to the empty string
otherwise; the same rule derives `total_row` from `total`.  The binding
holds for every record, in particular overriding any raw `tax_row` or
`total_row` field the record itself carries. -/
theorem c5_derived_row_fields (data : Record) :
    (∀ v : PyValue, pyLookup (S "tax") data = Option.some v →
      v ≠ PyValue.none →
      pyLookup (S "tax_row") (buildTemplateData data) =
          Option.some (taxFragment (pyStr v)) ∧
        containsSub (pyStr v) (taxFragment (pyStr v)) = true ∧
        containsSub (S " руб.") (taxFragment (pyStr v)) = true) ∧
    ((pyLookup (S "tax") data = Option.none ∨
        pyLookup (S "tax") data = Option.some PyValue.none) →
      pyLookup (S "tax_row") (buildTemplateData data) = Option.some []) ∧
    (∀ v : PyValue, pyLookup (S "total") data = Option.some v →
      v ≠ PyValue.none →
      pyLookup (S "total_row") (buildTemplateData data) =
        Option.some (totalFragment (pyStr v))) ∧
    ((pyLookup (S "total") data = Option.none ∨
        pyLookup (S "total") data = Option.some PyValue.none) →
      pyLookup (S "total_row") (buildTemplateData data) = Option.some []) := by
  refine ⟨?_, ?_, ?_, ?_⟩
  · intro v hl hv
    refine ⟨?_, ?_, ?_⟩
    · rw [buildTemplateData_tax_row data, taxRowValue_of_some hl hv]
    · unfold taxFragment
      rw [List.append_assoc]
      exact containsSub_here (pyStr v) _ _
    · unfold taxFragment
      have heq : S " руб.</span></div>" = S " руб." ++ S "</span></div>" := by
        decide
      rw [heq]
      exact containsSub_here (S " руб.") _ _
  · intro h
    rw [buildTemplateData_tax_row data, taxRowValue_of_absent h]
  · intro v hl hv
    rw [buildTemplateData_total_row data, totalRowValue_of_some hl hv]
  · intro h
    rw [buildTemplateData_total_row data, totalRowValue_of_absent h]

/-- Witness for C5 at a concrete record that has a non-null `tax`, lacks
`total`, and even carries a raw `tax_row` field that must be overridden. -/
theorem c5_derived_row_fields_witness :
    pyLookup (S "tax_row")
        (buildTemplateData [(S "tax", PyValue.str (S "100")),
          (S "tax_row", PyValue.str (S "junk"))]) =
      Option.some (taxFragment (S "100")) ∧
    pyLookup (S "total_row")
        (buildTemplateData [(S "tax", PyValue.str (S "100")),
          (S "tax_row", PyValue.str (S "junk"))]) =
      Option.some [] :=
  ⟨((c5_derived_row_fields _).1 (PyValue.str (S "100")) (by decide)
      (by decide)).1,
    (c5_derived_row_fields _).2.2.2 (Or.inl (by decide))⟩

/-! ### Claim C8 -/

/-- C8: a float NaN `tax` value is not run through the NaN-to-empty
normalisation when `tax_row` is derived: the fragment carries the text
`nan` (and is not the empty string), even though the ordinary `tax`
binding itself is normalised to the empty string; likewise for `total`. -/
theorem c8_nan_rows (data : Record) :
    (pyLookup (S "tax") data = Option.some PyValue.nan →
      pyLookup (S "tax_row") (buildTemplateData data) =
          Option.some (taxFragment (S "nan")) ∧
        taxFragment (S "nan") ≠ [] ∧
        containsSub (S "nan") (taxFragment (S "nan")) = true ∧
        pyLookup (S "tax") (buildTemplateData data) = Option.some []) ∧
    (pyLookup (S "total") data = Option.some PyValue.nan →
      pyLookup (S "total_row") (buildTemplateData data) =
        Option.some (totalFragment (S "nan"))) := by
  constructor
  · intro hl
    refine ⟨?_, by decide, by decide, ?_⟩
    · rw [buildTemplateData_tax_row data,
        taxRowValue_of_some hl (by decide)]
      rfl
    · rw [buildTemplateData_plain data (by decide) (by decide), hl]
      rfl
  · intro hl
    rw [buildTemplateData_total_row data,
      totalRowValue_of_some hl (by decide)]
    rfl

/-- Witness for C8 at a concrete record with NaN `tax` and `total`. -/
theorem c8_nan_rows_witness :
    pyLookup (S "tax_row")
        (buildTemplateData [(S "tax", PyValue.nan), (S "total", PyValue.nan)]) =
      Option.some (taxFragment (S "nan")) ∧
    pyLookup (S "total_row")
        (buildTemplateData [(S "tax", PyValue.nan), (S "total", PyValue.nan)]) =
      Option.some (totalFragment (S "nan")) :=
  ⟨((c8_nan_rows _).1 (by decide)).1, (c8_nan_rows _).2 (by decide)⟩

/-! ### Claim C7 -/

theorem pyLookup_filter_out {α : Type} (p : List Char)
    (d : List (List Char × α)) :
    pyLookup p (d.filter (fun f => !(f.1 = p))) = Option.none := by
  induction d with
  | nil => rfl
  | cons kv d' ih =>
    rw [List.filter_cons]
    by_cases hk : kv.1 = p
    · rw [if_neg (by simp [hk])]
      exact ih
    · rw [if_pos (by simp [hk])]
      rw [pyLookup_cons, if_neg hk]
      exact ih

theorem pyLookup_filter_other {α : Type} {q p : List Char} (h : q ≠ p)
    (d : List (List Char × α)) :
    pyLookup q (d.filter (fun f => !(f.1 = p))) = pyLookup q d := by
  induction d with
  | nil => rfl
  | cons kv d' ih =>
    rw [List.filter_cons]
    by_cases hk : kv.1 = p
    · rw [if_neg (by simp [hk])]
      rw [pyLookup_cons,
        if_neg (fun he : kv.1 = q => h (he.symm.trans hk))]
      exact ih
    · rw [if_pos (by simp [hk])]
      rw [pyLookup_cons, pyLookup_cons]
      by_cases hq : kv.1 = q
      · rw [if_pos hq, if_pos hq]
      · rw [if_neg hq, if_neg hq, ih]

theorem fsLookup_write_self (p bytes : List Char) (fs : FileSystem) :
    fsLookup p (fsWrite p bytes fs) = Option.some bytes := by
  unfold fsLookup fsWrite fsRemove
  rw [pyLookup_append_right _ (pyLookup_filter_out p fs.files)]
  rw [pyLookup_cons, if_pos rfl]

theorem fsLookup_write_other {q p : List Char} (h : q ≠ p)
    (bytes : List Char) (fs : FileSystem) :
    fsLookup q (fsWrite p bytes fs) = fsLookup q fs := by
  unfold fsLookup fsWrite fsRemove
  rw [pyLookup_append_single_other (fun he => h he),
    pyLookup_filter_other h]

theorem fsCount_write (p bytes : List Char) (fs : FileSystem) :
    fsCount p (fsWrite p bytes fs) = 1 := by
  unfold fsCount fsWrite fsRemove
  rw [List.filter_append]
  have h1 : ∀ d : List (List Char × List Char),
      (d.filter (fun f => !(f.1 = p))).filter (fun f => f.1 = p) = [] := by
    intro d
    induction d with
    | nil => rfl
    | cons kv d' ih =>
      rw [List.filter_cons]
      by_cases hk : kv.1 = p
      · rw [if_neg (by simp [hk])]
        exact ih
      · rw [if_pos (by simp [hk]), List.filter_cons, if_neg (by simp [hk])]
        exact ih
  rw [h1]
  simp

theorem generate_pdf_write_ok (fs1 : FileSystem) (p bytes : List Char) :
    generate_pdf_write fs1 p true (Except.ok bytes) =
      { fs := fsWrite p bytes fs1, error := Option.none } := rfl

theorem generate_pdf_fs_ok (fs : FileSystem) (p bytes : List Char) :
    generate_pdf_fs fs p true true (Except.ok bytes) =
      { fs := fsWrite p bytes fs, error := Option.none } := by
  unfold generate_pdf_fs
  by_cases h : fsExists p fs = true
  · rw [if_pos h, if_pos rfl, generate_pdf_write_ok]
    have hw : fsWrite p bytes (fsRemove p fs) = fsWrite p bytes fs := by
      unfold fsWrite fsRemove
      congr 1
      simp [List.filter_filter]
    rw [hw]
  · rw [if_neg h, generate_pdf_write_ok]

/-- C7: the write phase of `generate_pdf`.  If a file exists at the output
path and its removal is denied, the run aborts with a raised error and the
filesystem is unchanged (no silent overwrite, no renamed file).  When
removal is permitted, the run deletes any existing file and writes the new
bytes to exactly that path, leaving every other path untouched and exactly
one directory entry at the output path; a second run for the same invoice
id writes the same single path again. -/
theorem c7_output_overwrite (fs : FileSystem)
    (invoice_id bytes bytes2 : List Char) :
    (fsExists (invoice_output_path invoice_id) fs = true →
      generate_pdf_fs fs (invoice_output_path invoice_id) false true
          (Except.ok bytes) =
        { fs := fs, error := Option.some PdfError.removalDenied }) ∧
    ((generate_pdf_fs fs (invoice_output_path invoice_id) true true
        (Except.ok bytes)).error = Option.none ∧
      fsLookup (invoice_output_path invoice_id)
          (generate_pdf_fs fs (invoice_output_path invoice_id) true true
            (Except.ok bytes)).fs = Option.some bytes ∧
      fsCount (invoice_output_path invoice_id)
          (generate_pdf_fs fs (invoice_output_path invoice_id) true true
            (Except.ok bytes)).fs = 1 ∧
      (∀ q, q ≠ invoice_output_path invoice_id →
        fsLookup q
            (generate_pdf_fs fs (invoice_output_path invoice_id) true true
              (Except.ok bytes)).fs = fsLookup q fs)) ∧
    (fsLookup (invoice_output_path invoice_id)
        (generate_pdf_fs
          (generate_pdf_fs fs (invoice_output_path invoice_id) true true
            (Except.ok bytes)).fs
          (invoice_output_path invoice_id) true true
          (Except.ok bytes2)).fs = Option.some bytes2 ∧
      fsCount (invoice_output_path invoice_id)
        (generate_pdf_fs
          (generate_pdf_fs fs (invoice_output_path invoice_id) true true
            (Except.ok bytes)).fs
          (invoice_output_path invoice_id) true true
          (Except.ok bytes2)).fs = 1) := by
  refine ⟨?_, ⟨?_, ?_, ?_, ?_⟩, ⟨?_, ?_⟩⟩
  · intro hex
    unfold generate_pdf_fs
    rw [if_pos hex, if_neg (by simp)]
  · rw [generate_pdf_fs_ok]
  · rw [generate_pdf_fs_ok]
    exact fsLookup_write_self _ bytes fs
  · rw [generate_pdf_fs_ok]
    exact fsCount_write _ bytes fs
  · intro q hq
    rw [generate_pdf_fs_ok]
    exact fsLookup_write_other hq bytes fs
  · rw [generate_pdf_fs_ok, generate_pdf_fs_ok]
    exact fsLookup_write_self _ bytes2 _
  · rw [generate_pdf_fs_ok, generate_pdf_fs_ok]
    exact fsCount_write _ bytes2 _

/-- Witness for C7 at a concrete filesystem holding an old PDF at the
output path for invoice `A1` and an unrelated file. -/
theorem c7_output_overwrite_witness :
    (generate_pdf_fs
        ⟨[(invoice_output_path (S "A1"), S "OLD"), (S "other.txt", S "T")]⟩
        (invoice_output_path (S "A1")) false true (Except.ok (S "NEW")) =
      { fs := ⟨[(invoice_output_path (S "A1"), S "OLD"),
          (S "other.txt", S "T")]⟩,
        error := Option.some PdfError.removalDenied }) ∧
    fsLookup (S "other.txt")
        (generate_pdf_fs
          ⟨[(invoice_output_path (S "A1"), S "OLD"), (S "other.txt", S "T")]⟩
          (invoice_output_path (S "A1")) true true
          (Except.ok (S "NEW"))).fs =
      fsLookup (S "other.txt")
        ⟨[(invoice_output_path (S "A1"), S "OLD"), (S "other.txt", S "T")]⟩ :=
  ⟨(c7_output_overwrite
      ⟨[(invoice_output_path (S "A1"), S "OLD"), (S "other.txt", S "T")]⟩
      (S "A1") (S "NEW") (S "NEW2")).1 (by decide),
    (c7_output_overwrite
      ⟨[(invoice_output_path (S "A1"), S "OLD"), (S "other.txt", S "T")]⟩
      (S "A1") (S "NEW") (S "NEW2")).2.1.2.2.2 (S "other.txt") (by decide)⟩

/-! ### Claim C4 -/

/-- C4 counterexample: on a dataset in which no record has any identifier
field, the claim says every query returns nothing; but because the chain
value is `None` and `str(None) = "None"`, the query string `"None"`
returns the first record. -/
theorem c4_find_none_query_counterexample :
    find_record_by_invoice_id [[(S "name", PyValue.str (S "x"))]]
        (S "None") =
      Option.some [(S "name", PyValue.str (S "x"))] := by decide

/-- C4 (amended): `find_record_by_invoice_id` returns the first record
whose fallback-chain value converted through `str` equals the query,
where records with no present-and-truthy identifier field contribute
`str(None) = "None"`; hence on an identifier-free dataset every query
other than `"None"` returns nothing (and `"None"` may match). -/
theorem c4_find_record_semantics (data : List Record) (q : List Char) :
    (find_record_by_invoice_id data q =
      data.find? (fun r => pyStr (invoiceIdField r) = q)) ∧
    ((∀ r ∈ data, pyLookup (S "invoice_id") r = Option.none ∧
        pyLookup (S "invoiceId") r = Option.none ∧
        pyLookup (S "invoice") r = Option.none ∧
        pyLookup (S "id") r = Option.none ∧
        pyLookup (S "ID") r = Option.none) →
      q ≠ S "None" →
      find_record_by_invoice_id data q = Option.none) := by
  constructor
  · induction data with
    | nil => rfl
    | cons r rest ih =>
      show (if pyStr (invoiceIdField r) = q then Option.some r
        else find_record_by_invoice_id rest q) = _
      by_cases h : pyStr (invoiceIdField r) = q
      · rw [if_pos h, List.find?_cons_of_pos _ (by simp [h])]
      · rw [if_neg h, List.find?_cons_of_neg _ (by simp [h]), ih]
  · intro hid hq
    induction data with
    | nil => rfl
    | cons r rest ih =>
      have h5 := hid r (by simp)
      have hfield : invoiceIdField r = PyValue.none := by
        unfold invoiceIdField pyGet
        rw [h5.1, h5.2.1, h5.2.2.1, h5.2.2.2.1, h5.2.2.2.2]
        rfl
      show (if pyStr (invoiceIdField r) = q then Option.some r
        else find_record_by_invoice_id rest q) = _
      rw [hfield, if_neg (fun he => hq he.symm)]
      exact ih (fun r' hr' => hid r' (by simp [hr']))

/-- Witness for C4 at a concrete identifier-free dataset and a query
other than `"None"`. -/
theorem c4_find_record_semantics_witness :
    find_record_by_invoice_id [[(S "amount", PyValue.str (S "50"))]]
        (S "A1") =
      Option.none :=
  (c4_find_record_semantics [[(S "amount", PyValue.str (S "50"))]]
    (S "A1")).2 (by decide) (by decide)

/-! ### Claim C6 -/

/-- The default stylesheet in the no-registered-font configuration. -/
def styleTagDefault : List Char :=
  style_tag ⟨Option.none, false, false⟩

theorem style_tag_of_none {fc : FontConfig} (hfc : fc.path = Option.none) :
    style_tag fc = styleTagDefault := by
  unfold style_tag styleTagDefault style_tag font_face_css font_family
  rw [hfc]

set_option maxRecDepth 4000 in
/-- C6 counterexample: the claim says the head-closing anchor is matched
case-insensitively.  For HTML whose only head-closing anchor is the
mixed-case `</Head>` (and which has no style block), the code does not
inject into the head: it falls through to prepending, and its output is
not what head-insertion would produce. -/
theorem c6_mixed_case_head_counterexample :
    containsSub (S "</Head>")
        (S "<html><Head>t</Head><p>x</p></html>") = true ∧
    injectStyles ⟨Option.none, false, false⟩
        (S "<html><Head>t</Head><p>x</p></html>") =
      style_tag ⟨Option.none, false, false⟩ ++
        S "<html><Head>t</Head><p>x</p></html>" ∧
    injectStyles ⟨Option.none, false, false⟩
        (S "<html><Head>t</Head><p>x</p></html>") ≠
      pyReplace (S "</Head>")
        (style_tag ⟨Option.none, false, false⟩ ++ S "</Head>")
        (S "<html><Head>t</Head><p>x</p></html>") := by
  refine ⟨by decide, by decide, by decide⟩

set_option maxRecDepth 8000 in
/-- C6 (amended): for HTML with no style block, the full default
stylesheet (A4 page, 2cm margins, 12pt body text, forced font family) is
injected before the head-closing anchor when one is present, else after
the body-opening anchor, else prepended — but the style detection and the
anchors are matched only in their all-lowercase or all-uppercase exact
forms, not case-insensitively.  Stated for tag-free context `x`/`y`
around an exact lowercase anchor, in the no-registered-font
configuration. -/
theorem c6_default_stylesheet_injection (fc : FontConfig)
    (x y : List Char) (hfc : fc.path = Option.none)
    (hx : ∀ c ∈ x, c ≠ '<') (hy : ∀ c ∈ y, c ≠ '<') :
    (injectStyles fc (x ++ (S "</head>" ++ y)) =
      x ++ ((style_tag fc ++ S "</head>") ++ y)) ∧
    (injectStyles fc (x ++ (S "<body>" ++ y)) =
      x ++ ((S "<body>" ++ style_tag fc) ++ y)) ∧
    (injectStyles fc (x ++ y) = style_tag fc ++ (x ++ y)) ∧
    containsSub (S "size: A4") (style_tag fc) = true ∧
    containsSub (S "margin: 2cm") (style_tag fc) = true ∧
    containsSub (S "font-size: 12pt") (style_tag fc) = true ∧
    containsSub (S "font-family: Arial, sans-serif !important")
      (style_tag fc) = true := by
  have hltStyle : ('<' : Char) ∈ '<' :: S "style>" := by simp
  have hltSTYLE : ('<' : Char) ∈ '<' :: S "STYLE>" := by simp
  have hltHead : ('<' : Char) ∈ '<' :: S "/head>" := by simp
  have hltHEAD : ('<' : Char) ∈ '<' :: S "/HEAD>" := by simp
  have hltBody : ('<' : Char) ∈ '<' :: S "body>" := by simp
  have hltBODY : ('<' : Char) ∈ '<' :: S "BODY>" := by simp
  refine ⟨?_, ?_, ?_, ?_, ?_, ?_, ?_⟩
  · -- head-anchor case
    have c1 : containsSub (S "<style>") (x ++ (S "</head>" ++ y)) = false := by
      show containsSub ('<' :: S "style>") (x ++ (S "</head>" ++ y)) = false
      rw [containsSub_pass '<' (S "style>") x _ hx]
      exact containsSub_false_of_noStart (by decide)
        (containsSub_false_of_mem hltStyle hy)
    have c2 : containsSub (S "<STYLE>") (x ++ (S "</head>" ++ y)) = false := by
      show containsSub ('<' :: S "STYLE>") (x ++ (S "</head>" ++ y)) = false
      rw [containsSub_pass '<' (S "STYLE>") x _ hx]
      exact containsSub_false_of_noStart (by decide)
        (containsSub_false_of_mem hltSTYLE hy)
    have c3 : containsSub (S "</head>") (x ++ (S "</head>" ++ y)) = true :=
      containsSub_here (S "</head>") x y
    unfold injectStyles
    rw [if_pos (by rw [c1, c2]; rfl), if_pos (by rw [c3]; rfl)]
    have hinner : pyReplace (S "</head>") (style_tag fc ++ S "</head>")
        (x ++ (S "</head>" ++ y)) =
        x ++ ((style_tag fc ++ S "</head>") ++ y) := by
      show pyReplace ('<' :: S "/head>") (style_tag fc ++ S "</head>")
        (x ++ (('<' :: S "/head>") ++ y)) = _
      rw [pyReplace_pass '<' (S "/head>") _ x _ hx, pyReplace_head,
        pyReplace_id '<' (S "/head>") _ y hy]
    rw [hinner]
    have houter : containsSub (S "</HEAD>")
        (x ++ ((style_tag fc ++ S "</head>") ++ y)) = false := by
      show containsSub ('<' :: S "/HEAD>")
        (x ++ ((style_tag fc ++ S "</head>") ++ y)) = false
      rw [containsSub_pass '<' (S "/HEAD>") x _ hx, style_tag_of_none hfc]
      exact containsSub_false_of_noStart (by decide)
        (containsSub_false_of_mem hltHEAD hy)
    rw [pyReplace_no_occ houter]
  · -- body-anchor case
    have c1 : containsSub (S "<style>") (x ++ (S "<body>" ++ y)) = false := by
      show containsSub ('<' :: S "style>") (x ++ (S "<body>" ++ y)) = false
      rw [containsSub_pass '<' (S "style>") x _ hx]
      exact containsSub_false_of_noStart (by decide)
        (containsSub_false_of_mem hltStyle hy)
    have c2 : containsSub (S "<STYLE>") (x ++ (S "<body>" ++ y)) = false := by
      show containsSub ('<' :: S "STYLE>") (x ++ (S "<body>" ++ y)) = false
      rw [containsSub_pass '<' (S "STYLE>") x _ hx]
      exact containsSub_false_of_noStart (by decide)
        (containsSub_false_of_mem hltSTYLE hy)
    have c3 : containsSub (S "</head>") (x ++ (S "<body>" ++ y)) = false := by
      show containsSub ('<' :: S "/head>") (x ++ (S "<body>" ++ y)) = false
      rw [containsSub_pass '<' (S "/head>") x _ hx]
      exact containsSub_false_of_noStart (by decide)
        (containsSub_false_of_mem hltHead hy)
    have c4 : containsSub (S "</HEAD>") (x ++ (S "<body>" ++ y)) = false := by
      show containsSub ('<' :: S "/HEAD>") (x ++ (S "<body>" ++ y)) = false
      rw [containsSub_pass '<' (S "/HEAD>") x _ hx]
      exact containsSub_false_of_noStart (by decide)
        (containsSub_false_of_mem hltHEAD hy)
    have c5 : containsSub (S "<body>") (x ++ (S "<body>" ++ y)) = true :=
      containsSub_here (S "<body>") x y
    unfold injectStyles
    rw [if_pos (by rw [c1, c2]; rfl), if_neg (by rw [c3, c4]; simp),
      if_pos (by rw [c5]; rfl)]
    have hinner : pyReplace (S "<body>") (S "<body>" ++ style_tag fc)
        (x ++ (S "<body>" ++ y)) =
        x ++ ((S "<body>" ++ style_tag fc) ++ y) := by
      show pyReplace ('<' :: S "body>") (S "<body>" ++ style_tag fc)
        (x ++ (('<' :: S "body>") ++ y)) = _
      rw [pyReplace_pass '<' (S "body>") _ x _ hx, pyReplace_head,
        pyReplace_id '<' (S "body>") _ y hy]
    rw [hinner]
    have houter : containsSub (S "<BODY>")
        (x ++ ((S "<body>" ++ style_tag fc) ++ y)) = false := by
      show containsSub ('<' :: S "BODY>")
        (x ++ ((S "<body>" ++ style_tag fc) ++ y)) = false
      rw [containsSub_pass '<' (S "BODY>") x _ hx, style_tag_of_none hfc]
      exact containsSub_false_of_noStart (by decide)
        (containsSub_false_of_mem hltBODY hy)
    rw [pyReplace_no_occ houter]
  · -- no-anchor case: prepended
    have hxy : ∀ c ∈ x ++ y, c ≠ '<' := by
      intro c hc
      rcases List.mem_append.mp hc with h | h
      · exact hx c h
      · exact hy c h
    have c1 : containsSub (S "<style>") (x ++ y) = false :=
      containsSub_false_of_mem hltStyle hxy
    have c2 : containsSub (S "<STYLE>") (x ++ y) = false :=
      containsSub_false_of_mem hltSTYLE hxy
    have c3 : containsSub (S "</head>") (x ++ y) = false :=
      containsSub_false_of_mem hltHead hxy
    have c4 : containsSub (S "</HEAD>") (x ++ y) = false :=
      containsSub_false_of_mem hltHEAD hxy
    have c5 : containsSub (S "<body>") (x ++ y) = false :=
      containsSub_false_of_mem hltBody hxy
    have c6 : containsSub (S "<BODY>") (x ++ y) = false :=
      containsSub_false_of_mem hltBODY hxy
    unfold injectStyles
    rw [if_pos (by rw [c1, c2]; rfl), if_neg (by rw [c3, c4]; simp),
      if_neg (by rw [c5, c6]; simp)]
  · rw [style_tag_of_none hfc]; decide
  · rw [style_tag_of_none hfc]; decide
  · rw [style_tag_of_none hfc]; decide
  · rw [style_tag_of_none hfc]; decide

set_option maxRecDepth 8000 in
/-- Witness for C6 at concrete head-anchored HTML with no style block. -/
theorem c6_default_stylesheet_injection_witness :
    injectStyles ⟨Option.none, false, false⟩
        (S "ab" ++ (S "</head>" ++ S "ok")) =
      S "ab" ++
        ((style_tag ⟨Option.none, false, false⟩ ++ S "</head>") ++
          S "ok") := by
  have h := (c6_default_stylesheet_injection ⟨Option.none, false, false⟩
    (S "ab") (S "ok") rfl (by decide) (by decide)).1
  exact h

/-! ### Toolkit: the rendering pipeline on structured templates -/

theorem forall_mem_append {p : Char} {x y : List Char}
    (hx : ∀ c ∈ x, c ≠ p) (hy : ∀ c ∈ y, c ≠ p) :
    ∀ c ∈ x ++ y, c ≠ p := by
  intro c hc
  rcases List.mem_append.mp hc with h | h
  · exact hx c h
  · exact hy c h

/-- Render-pipeline unfolding of `render_body`. -/
theorem render_body_eq (T : List Char) (data : Record) :
    render_body T data =
      pyReplace sentC (S "\x7d\x7d")
        (pyReplace sentO (S "\x7b\x7b")
          (applySubsts (buildTemplateData data)
            (pyReplace (S "\x7d\x7d") sentC
              (pyReplace (S "\x7b\x7b") sentO T)))) := rfl

/-- When the template contains no escaped-brace sequence, the protect
phase is the identity; if additionally the substituted text is free of the
sentinel NUL character, the restore phase is the identity too. -/
theorem render_body_no_escapes {T T' : List Char} {data : Record}
    (h1 : containsSub (S "\x7b\x7b") T = false)
    (h2 : containsSub (S "\x7d\x7d") T = false)
    (h3 : applySubsts (buildTemplateData data) T = T')
    (h4 : ∀ c ∈ T', c ≠ '\x00') :
    render_body T data = T' := by
  rw [render_body_eq, pyReplace_no_occ h1, pyReplace_no_occ h2, h3]
  have hro : pyReplace sentO (S "\x7b\x7b") T' = T' := by
    show pyReplace ('\x00' :: S "OPEN\x00") (S "\x7b\x7b") T' = T'
    exact pyReplace_id '\x00' (S "OPEN\x00") _ T' h4
  rw [hro]
  show pyReplace ('\x00' :: S "CLOSE\x00") (S "\x7d\x7d") T' = T'
  exact pyReplace_id '\x00' (S "CLOSE\x00") _ T' h4

/-- Restoring `OPEN` sentinels never touches a `CLOSE` sentinel, whatever
NUL-free text follows it. -/
theorem containsSub_sentO_sentC_append {b : List Char}
    (hb : ∀ c ∈ b, c ≠ '\x00') :
    containsSub sentO (sentC ++ b) = false := by
  have hOPEN : (S "OPEN\x00").isPrefixOf b = false :=
    isPrefixOf_false_of_mem (by decide) hb
  show containsSub ('\x00' :: S "OPEN\x00")
    ('\x00' :: (S "CLOSE" ++ ('\x00' :: b))) = false
  rw [containsSub_cons]
  have h0 : (('\x00' :: S "OPEN\x00").isPrefixOf
      ('\x00' :: (S "CLOSE" ++ ('\x00' :: b)))) = false := by
    rw [isPrefixOf_cons_eq]
    have hmid : (S "OPEN\x00").isPrefixOf (S "CLOSE" ++ ('\x00' :: b)) = false := by
      show ('O' :: S "PEN\x00").isPrefixOf ('C' :: (S "LOSE" ++ ('\x00' :: b))) = false
      exact isPrefixOf_cons_ne 'O' _ _ (by decide)
    rw [hmid]
    simp
  rw [h0]
  have h1 : containsSub ('\x00' :: S "OPEN\x00")
      (S "CLOSE" ++ ('\x00' :: b)) = false := by
    rw [containsSub_pass '\x00' (S "OPEN\x00") (S "CLOSE") _ (by decide),
      containsSub_cons]
    have h2 : (('\x00' :: S "OPEN\x00").isPrefixOf ('\x00' :: b)) = false := by
      rw [isPrefixOf_cons_eq, hOPEN]
      simp
    rw [h2, containsSub_false_of_mem
      (show ('\x00' : Char) ∈ '\x00' :: S "OPEN\x00" by simp) hb]
    rfl
  rw [h1]
  rfl

/-- Character-class facts for identifier characters. -/
theorem identChar_ne {c x : Char} (h : isIdentChar c = true)
    (hx : isIdentChar x = false) : c ≠ x := by
  intro he
  rw [he, hx] at h
  exact absurd h (by simp)

theorem identList_ne {name : List Char}
    (h : ∀ c ∈ name, isIdentChar c = true) {x : Char}
    (hx : isIdentChar x = false) : ∀ c ∈ name, c ≠ x :=
  fun c hc => identChar_ne (h c hc) hx

/-- The core preservation fact behind C2 and C10: a template
`a ++ {{name}} ++ b` whose context `a`, `b` is free of braces and of the
NUL sentinel character, with `name` made of identifier characters, renders
to itself under every record: the escaped token survives unchanged. -/
theorem render_body_escaped_token (a b name : List Char) (data : Record)
    (ha1 : ∀ c ∈ a, c ≠ '\x7b') (ha2 : ∀ c ∈ a, c ≠ '\x7d')
    (ha3 : ∀ c ∈ a, c ≠ '\x00')
    (hb1 : ∀ c ∈ b, c ≠ '\x7b') (hb2 : ∀ c ∈ b, c ≠ '\x7d')
    (hb3 : ∀ c ∈ b, c ≠ '\x00')
    (hname : ∀ c ∈ name, isIdentChar c = true) :
    render_body (a ++ (S "\x7b\x7b" ++ (name ++ (S "\x7d\x7d" ++ b)))) data =
      a ++ (S "\x7b\x7b" ++ (name ++ (S "\x7d\x7d" ++ b))) := by
  have hn1 : ∀ c ∈ name, c ≠ '\x7b' := identList_ne hname (by decide)
  have hn2 : ∀ c ∈ name, c ≠ '\x7d' := identList_ne hname (by decide)
  have hn3 : ∀ c ∈ name, c ≠ '\x00' := identList_ne hname (by decide)
  rw [render_body_eq]
  have s1 : pyReplace (S "\x7b\x7b") sentO
      (a ++ (S "\x7b\x7b" ++ (name ++ (S "\x7d\x7d" ++ b)))) =
      a ++ (sentO ++ (name ++ (S "\x7d\x7d" ++ b))) := by
    show pyReplace ('\x7b' :: S "\x7b") sentO
      (a ++ (('\x7b' :: S "\x7b") ++ (name ++ (S "\x7d\x7d" ++ b)))) = _
    rw [pyReplace_pass '\x7b' (S "\x7b") sentO a _ ha1, pyReplace_head,
      pyReplace_id '\x7b' (S "\x7b") sentO _
        (forall_mem_append hn1
          (forall_mem_append (by decide) hb1))]
  rw [s1]
  have s2 : pyReplace (S "\x7d\x7d") sentC
      (a ++ (sentO ++ (name ++ (S "\x7d\x7d" ++ b)))) =
      a ++ (sentO ++ (name ++ (sentC ++ b))) := by
    show pyReplace ('\x7d' :: S "\x7d") sentC
      (a ++ (sentO ++ (name ++ (('\x7d' :: S "\x7d") ++ b)))) = _
    rw [pyReplace_pass '\x7d' (S "\x7d") sentC a _ ha2,
      pyReplace_pass '\x7d' (S "\x7d") sentC sentO _ (by decide),
      pyReplace_pass '\x7d' (S "\x7d") sentC name _ hn2, pyReplace_head,
      pyReplace_id '\x7d' (S "\x7d") sentC b hb2]
  rw [s2]
  have s3 : applySubsts (buildTemplateData data)
      (a ++ (sentO ++ (name ++ (sentC ++ b)))) =
      a ++ (sentO ++ (name ++ (sentC ++ b))) :=
    applySubsts_id _ _
      (forall_mem_append ha1
        (forall_mem_append (by decide)
          (forall_mem_append hn1 (forall_mem_append (by decide) hb1))))
  rw [s3]
  have s4 : pyReplace sentO (S "\x7b\x7b")
      (a ++ (sentO ++ (name ++ (sentC ++ b)))) =
      a ++ (S "\x7b\x7b" ++ (name ++ (sentC ++ b))) := by
    show pyReplace ('\x00' :: S "OPEN\x00") (S "\x7b\x7b")
      (a ++ (('\x00' :: S "OPEN\x00") ++ (name ++ (sentC ++ b)))) = _
    rw [pyReplace_pass '\x00' (S "OPEN\x00") _ a _ ha3, pyReplace_head,
      pyReplace_pass '\x00' (S "OPEN\x00") _ name _ hn3]
    rw [show pyReplace ('\x00' :: S "OPEN\x00") (S "\x7b\x7b") (sentC ++ b) =
        sentC ++ b from
      pyReplace_no_occ (containsSub_sentO_sentC_append hb3)]
  rw [s4]
  show pyReplace ('\x00' :: S "CLOSE\x00") (S "\x7d\x7d")
    (a ++ (S "\x7b\x7b" ++ (name ++ (('\x00' :: S "CLOSE\x00") ++ b)))) = _
  rw [pyReplace_pass '\x00' (S "CLOSE\x00") _ a _ ha3,
    pyReplace_pass '\x00' (S "CLOSE\x00") _ (S "\x7b\x7b") _ (by decide),
    pyReplace_pass '\x00' (S "CLOSE\x00") _ name _ hn3, pyReplace_head,
    pyReplace_id '\x00' (S "CLOSE\x00") _ b hb3]

/-! ### Toolkit: diagnostic pass -/

/-- A well-formed placeholder identifier, `[a-zA-Z_][a-zA-Z0-9_]*`. -/
def isIdentifier : List Char → Bool
  | [] => false
  | d :: nt => isIdentStart d && nt.all isIdentChar

theorem identStart_isChar {c : Char} (h : isIdentStart c = true) :
    isIdentChar c = true := by
  unfold isIdentStart at h
  unfold isIdentChar Char.isAlphanum
  rcases Bool.or_eq_true_iff.mp h with h1 | h1
  · rw [h1]
    rfl
  · rw [h1]
    simp

theorem takeWhile_all_append {p : Char → Bool} :
    ∀ (nt : List Char) (c : Char) (y : List Char),
      (∀ a ∈ nt, p a = true) → p c = false →
      ((nt ++ c :: y).takeWhile p) = nt := by
  intro nt
  induction nt with
  | nil =>
    intro c y _ hc
    simp [List.takeWhile_cons, hc]
  | cons a nt' ih =>
    intro c y h hc
    rw [List.cons_append, List.takeWhile_cons, h a (by simp), if_pos rfl,
      ih c y (fun x hx => h x (by simp [hx])) hc]

theorem dropWhile_all_append {p : Char → Bool} :
    ∀ (nt : List Char) (c : Char) (y : List Char),
      (∀ a ∈ nt, p a = true) → p c = false →
      ((nt ++ c :: y).dropWhile p) = c :: y := by
  intro nt
  induction nt with
  | nil =>
    intro c y _ hc
    simp [List.dropWhile_cons, hc]
  | cons a nt' ih =>
    intro c y h hc
    rw [List.cons_append, List.dropWhile_cons, h a (by simp)]
    simp only [if_pos]
    exact ih c y (fun x hx => h x (by simp [hx])) hc

theorem identMatch_full {d : Char} {nt : List Char}
    (hd : isIdentStart d = true)
    (hnt : ∀ c ∈ nt, isIdentChar c = true) (y : List Char) :
    identMatch ((d :: nt) ++ ('\x7d' :: y)) =
      Option.some (d :: nt, y) := by
  have hstep : identMatch (d :: (nt ++ '\x7d' :: y)) =
      if isIdentStart d = true then
        identClose (d :: (nt ++ '\x7d' :: y).takeWhile isIdentChar)
          ((nt ++ '\x7d' :: y).dropWhile isIdentChar)
      else Option.none := rfl
  show identMatch (d :: (nt ++ '\x7d' :: y)) = _
  rw [hstep, if_pos hd,
    takeWhile_all_append nt '\x7d' y hnt (by decide),
    dropWhile_all_append nt '\x7d' y hnt (by decide)]
  show (if ('\x7d' : Char) = '\x7d' then Option.some (d :: nt, y)
    else Option.none) = Option.some (d :: nt, y)
  rw [if_pos rfl]

theorem identMatch_not_start {d : Char} (r2 : List Char)
    (hd : isIdentStart d = false) :
    identMatch (d :: r2) = Option.none := by
  have hstep : identMatch (d :: r2) =
      if isIdentStart d = true then
        identClose (d :: r2.takeWhile isIdentChar)
          (r2.dropWhile isIdentChar)
      else Option.none := rfl
  rw [hstep, if_neg (by simp [hd])]

theorem findPlaceholders_pass (x r : List Char)
    (hx : ∀ c ∈ x, c ≠ '\x7b') :
    findPlaceholders (x ++ r) = findPlaceholders r := by
  induction x with
  | nil => rfl
  | cons c x' ih =>
    rw [List.cons_append, findPlaceholders_cons, if_neg (hx c (by simp))]
    exact ih (fun d hd => hx d (by simp [hd]))

theorem findPlaceholders_empty (x : List Char)
    (hx : ∀ c ∈ x, c ≠ '\x7b') : findPlaceholders x = [] := by
  have h := findPlaceholders_pass x [] hx
  simpa using h

theorem charCI_lt {c : Char} (hc : c ≠ '<') : charCI '<' c = false := by
  unfold charCI
  rw [beq_eq_false_iff_ne.mpr hc]
  simp

theorem ciStarts_refl_append :
    ∀ (pat r : List Char), ciStarts pat (pat ++ r) = true
  | [], _ => rfl
  | p :: ps, r => by
    show (charCI p p && ciStarts ps (ps ++ r)) = true
    rw [ciStarts_refl_append ps r]
    unfold charCI
    simp

theorem tryStyleBlock_none {c : Char} (r : List Char) (hc : c ≠ '<') :
    tryStyleBlock (c :: r) = Option.none := by
  unfold tryStyleBlock
  rw [if_neg]
  show ¬(charCI '<' c && ciStarts (S "style") r) = true
  rw [charCI_lt hc]
  simp

theorem stripStyle_pass (x r : List Char) (hx : ∀ c ∈ x, c ≠ '<') :
    stripStyle (x ++ r) = x ++ stripStyle r := by
  induction x with
  | nil => rfl
  | cons c x' ih =>
    rw [List.cons_append, stripStyle_cons, tryStyleBlock_none _ (hx c (by simp)),
      Option.elim_none, ih (fun d hd => hx d (by simp [hd]))]
    rfl

theorem stripStyle_id (x : List Char) (hx : ∀ c ∈ x, c ≠ '<') :
    stripStyle x = x := by
  have h := stripStyle_pass x [] hx
  simpa using h

theorem dropToCloseStyle_pass (x r : List Char)
    (hx : ∀ c ∈ x, c ≠ '<') :
    dropToCloseStyle (x ++ r) = dropToCloseStyle r := by
  induction x with
  | nil => rfl
  | cons c x' ih =>
    rw [List.cons_append]
    show (if ciStarts (S "</style>") (c :: (x' ++ r))
      then Option.some ((x' ++ r).drop 7)
      else dropToCloseStyle (x' ++ r)) = _
    rw [if_neg]
    · exact ih (fun d hd => hx d (by simp [hd]))
    · show ¬(charCI '<' c && ciStarts (S "/style>") (x' ++ r)) = true
      rw [charCI_lt (hx c (by simp))]
      simp

theorem dropToCloseStyle_here (b : List Char) :
    dropToCloseStyle (S "</style>" ++ b) = Option.some b := by
  show (if ciStarts (S "</style>") ('<' :: (S "/style>" ++ b))
    then Option.some ((S "/style>" ++ b).drop 7)
    else dropToCloseStyle (S "/style>" ++ b)) = _
  rw [if_pos (show ciStarts (S "</style>") ('<' :: (S "/style>" ++ b)) = true
      from ciStarts_refl_append (S "</style>") b),
    show (7 : Nat) = (S "/style>").length from rfl, List.drop_left]

theorem stripStyle_block {inner b : List Char}
    (hin : ∀ c ∈ inner, c ≠ '<') :
    stripStyle (S "<style>" ++ (inner ++ (S "</style>" ++ b))) =
      stripStyle b := by
  show stripStyle ('<' :: (S "style>" ++ (inner ++ (S "</style>" ++ b)))) = _
  rw [stripStyle_cons]
  have ht : tryStyleBlock
      ('<' :: (S "style>" ++ (inner ++ (S "</style>" ++ b)))) =
      Option.some b := by
    unfold tryStyleBlock
    rw [if_pos (show ciStarts (S "<style")
        ('<' :: (S "style>" ++ (inner ++ (S "</style>" ++ b)))) = true from
      ciStarts_refl_append (S "<style") ('>' :: (inner ++ (S "</style>" ++ b))))]
    rw [show ('<' :: (S "style>" ++ (inner ++ (S "</style>" ++ b)))).drop 6 =
        (S "<style" ++ ('>' :: (inner ++ (S "</style>" ++ b)))).drop
          (S "<style").length from rfl,
      List.drop_left]
    show (dropToGt ('>' :: (inner ++ (S "</style>" ++ b)))).bind
      dropToCloseStyle = _
    rw [show dropToGt ('>' :: (inner ++ (S "</style>" ++ b))) =
        Option.some (inner ++ (S "</style>" ++ b)) from by
      unfold dropToGt; rw [if_pos rfl]]
    show dropToCloseStyle (inner ++ (S "</style>" ++ b)) = _
    rw [dropToCloseStyle_pass inner _ hin, dropToCloseStyle_here]
  rw [ht, Option.elim_some]

theorem dedupKeep_single (x : List Char) : dedupKeep [x] = [x] := by
  unfold dedupKeep
  rw [if_neg (by simp)]
  rfl

theorem containsSub_cons_head {p : Char} {pt rest : List Char}
    (h1 : pt.isPrefixOf rest = false)
    (h2 : containsSub (p :: pt) rest = false) :
    containsSub (p :: pt) (p :: rest) = false := by
  rw [containsSub_cons, isPrefixOf_cons_eq, h1, h2]
  simp

/-! ### Claim C2 -/

/-- C2 counterexample: the template `{k:{{literal}}}` contains the escaped
token `{{literal}}`, yet rendering with a record defining `k` consumes the
whole span — including the escaped braces, swallowed by the greedy
`{k:...}` format section — so the token does not survive. -/
theorem c2_format_span_counterexample :
    containsSub (S "\x7b\x7bliteral\x7d\x7d")
        (S "\x7bk:\x7b\x7bliteral\x7d\x7d\x7d") = true ∧
    render_body (S "\x7bk:\x7b\x7bliteral\x7d\x7d\x7d")
        [(S "k", PyValue.str (S "V"))] = S "V" ∧
    containsSub (S "\x7b\x7bliteral\x7d\x7d")
        (render_body (S "\x7bk:\x7b\x7bliteral\x7d\x7d\x7d")
          [(S "k", PyValue.str (S "V"))]) = false := by
  refine ⟨by decide, by decide, by decide⟩

/-- C2 (amended): for every record and every template splitting as
`a ++ "{{literal}}" ++ b` with the context `a`, `b` free of brace
characters and of the private NUL sentinel character (so the escaped token
does not sit inside another placeholder's `{key:format}` span), rendering
preserves the template — in particular the token `{{literal}}` — exactly,
even when a field named `literal` exists; without that restriction the
token can be destroyed when it lies inside the format span of a
substituted placeholder. -/
theorem c2_escaped_braces_preserved (a b : List Char) (data : Record)
    (ha : ∀ c ∈ a, c ≠ '\x7b' ∧ c ≠ '\x7d' ∧ c ≠ '\x00')
    (hb : ∀ c ∈ b, c ≠ '\x7b' ∧ c ≠ '\x7d' ∧ c ≠ '\x00') :
    render_body (a ++ (S "\x7b\x7bliteral\x7d\x7d" ++ b)) data =
      a ++ (S "\x7b\x7bliteral\x7d\x7d" ++ b) ∧
    containsSub (S "\x7b\x7bliteral\x7d\x7d")
      (render_body (a ++ (S "\x7b\x7bliteral\x7d\x7d" ++ b)) data) =
      true := by
  have key := render_body_escaped_token a b (S "literal") data
    (fun c hc => (ha c hc).1) (fun c hc => (ha c hc).2.1)
    (fun c hc => (ha c hc).2.2)
    (fun c hc => (hb c hc).1) (fun c hc => (hb c hc).2.1)
    (fun c hc => (hb c hc).2.2)
    (by decide)
  have hre : S "\x7b\x7bliteral\x7d\x7d" ++ b =
      S "\x7b\x7b" ++ (S "literal" ++ (S "\x7d\x7d" ++ b)) := rfl
  constructor
  · rw [hre]
    exact key
  · rw [hre, key]
    have hre2 : a ++ (S "\x7b\x7b" ++ (S "literal" ++ (S "\x7d\x7d" ++ b))) =
        a ++ (S "\x7b\x7bliteral\x7d\x7d" ++ b) := rfl
    rw [hre2]
    exact containsSub_here _ a b

/-- Witness for C2 at a concrete template and a record that even defines a
field named `literal`. -/
theorem c2_escaped_braces_preserved_witness :
    render_body (S "<p>" ++ (S "\x7b\x7bliteral\x7d\x7d" ++ S "</p>"))
        [(S "literal", PyValue.str (S "X"))] =
      S "<p>" ++ (S "\x7b\x7bliteral\x7d\x7d" ++ S "</p>") :=
  (c2_escaped_braces_preserved (S "<p>") (S "</p>")
    [(S "literal", PyValue.str (S "X"))] (by decide) (by decide)).1

/-! ### Claim C3 -/

/-- C3 counterexample: with record `{a: "{b}", b: "X"}` and template
`{a}`, the pass for `a` inserts `{b}` and the later pass for `b` then
substitutes inside it, so the inserted `{b}` does not remain unexpanded:
the output is `X`. -/
theorem c3_cross_key_expansion_counterexample :
    render_body (S "\x7ba\x7d")
        [(S "a", PyValue.str (S "\x7bb\x7d")),
          (S "b", PyValue.str (S "X"))] = S "X" ∧
    containsSub (S "\x7bb\x7d")
        (render_body (S "\x7ba\x7d")
          [(S "a", PyValue.str (S "\x7bb\x7d")),
            (S "b", PyValue.str (S "X"))]) = false := by
  refine ⟨by decide, by decide⟩

/-- C3 (amended): substitution is one independent linear pass per key, in
the merged mapping's insertion order, with no rescanning of a key's own
replacement text and no fixed-point iteration; but a pass for a later key
does scan text inserted by an earlier key's pass.  Concretely: a value
`{a}` for key `a` itself is not re-expanded; a value `{a}` inserted for
key `b` stays unexpanded because `a`'s pass already ran; and a value
`{b}` inserted for key `a` is expanded by the later pass for `b`. -/
theorem c3_substitution_pass_order (va : PyValue) (vb : List Char)
    (hvb1 : ∀ c ∈ vb, c ≠ '\x7b') (hvb3 : ∀ c ∈ vb, c ≠ '\x00') :
    render_body (S "\x7ba\x7d") [(S "a", PyValue.str (S "\x7ba\x7d"))] =
      S "\x7ba\x7d" ∧
    render_body (S "\x7bb\x7d")
        [(S "a", va), (S "b", PyValue.str (S "\x7ba\x7d"))] =
      S "\x7ba\x7d" ∧
    render_body (S "\x7ba\x7d")
        [(S "a", PyValue.str (S "\x7bb\x7d")), (S "b", PyValue.str vb)] =
      vb := by
  refine ⟨by decide, ?_, ?_⟩
  · -- earlier-key value stays unexpanded
    have htd : buildTemplateData
        [(S "a", va), (S "b", PyValue.str (S "\x7ba\x7d"))] =
        [(S "a", displayValue va), (S "b", S "\x7ba\x7d"),
          (S "tax_row", []), (S "total_row", [])] := rfl
    apply render_body_no_escapes (by decide) (by decide) ?_ (by decide)
    rw [htd, applySubsts_cons]
    have hpass1 : substKey (S "a") (displayValue va) (S "\x7bb\x7d") =
        S "\x7bb\x7d" := by
      show substKey (S "a") (displayValue va) ('\x7b' :: S "b\x7d") = _
      rw [substKey_nomatch _ (by decide), substKey_id _ _ _ (by decide)]
      rfl
    rw [hpass1]
    decide
  · -- later-key value gets expanded
    have htd : buildTemplateData
        [(S "a", PyValue.str (S "\x7bb\x7d")), (S "b", PyValue.str vb)] =
        [(S "a", S "\x7bb\x7d"), (S "b", vb),
          (S "tax_row", []), (S "total_row", [])] := rfl
    apply render_body_no_escapes (by decide) (by decide) ?_ hvb3
    rw [htd, applySubsts_cons]
    have hpass1 : substKey (S "a") (S "\x7bb\x7d") (S "\x7ba\x7d") =
        S "\x7bb\x7d" := by decide
    rw [hpass1, applySubsts_cons]
    have hpass2 : substKey (S "b") vb (S "\x7bb\x7d") = vb := by
      show substKey (S "b") vb ('\x7b' :: (S "b" ++ '\x7d' :: [])) = _
      rw [substKey_match vb (keyMatch_exact (S "b") [])]
      simp
    rw [hpass2, applySubsts_cons]
    have hpass3 : substKey (S "tax_row") [] vb = vb :=
      substKey_id _ _ _ hvb1
    rw [hpass3, applySubsts_cons]
    have hpass4 : substKey (S "total_row") [] vb = vb :=
      substKey_id _ _ _ hvb1
    rw [hpass4]
    rfl

/-- Witness for C3 with concrete values: the later-key case produces the
fully expanded `X`. -/
theorem c3_substitution_pass_order_witness :
    render_body (S "\x7bb\x7d")
        [(S "a", PyValue.int 7), (S "b", PyValue.str (S "\x7ba\x7d"))] =
      S "\x7ba\x7d" :=
  (c3_substitution_pass_order (PyValue.int 7) (S "Y")
    (by decide) (by decide)).2.1

/-! ### Claim C10 -/

theorem forall_mem_cons_ne {p x : Char} {l : List Char} (hx : x ≠ p)
    (hl : ∀ c ∈ l, c ≠ p) : ∀ c ∈ x :: l, c ≠ p := by
  intro c hc
  rcases List.mem_cons.mp hc with h | h
  · exact h ▸ hx
  · exact hl c h

/-- C10 counterexample: the template `{k:{{name}}}` contains the escaped
token `{{name}}` outside any style block, `name` is a well-formed
identifier absent from the merged mapping, yet nothing is reported: the
whole span is consumed by the `{k:...}` match, so the diagnostic never
sees `{name}` (and the token is not preserved either). -/
theorem c10_format_span_not_reported_counterexample :
    containsSub (S "\x7b\x7bname\x7d\x7d")
        (S "\x7bk:\x7b\x7bname\x7d\x7d\x7d") = true ∧
    render_body (S "\x7bk:\x7b\x7bname\x7d\x7d\x7d")
        [(S "k", PyValue.str (S "V"))] = S "V" ∧
    unresolvedPlaceholders
        (render_body (S "\x7bk:\x7b\x7bname\x7d\x7d\x7d")
          [(S "k", PyValue.str (S "V"))])
        (buildTemplateData [(S "k", PyValue.str (S "V"))]) = [] := by
  refine ⟨by decide, by decide, by decide⟩

/-- C10 (amended): for every template splitting as
`a ++ "{{" ++ name ++ "}}" ++ b` with brace-, NUL- and tag-free context
`a`, `b` (so the escaped token sits in no other placeholder's format span
and no style block), a well-formed identifier `name` absent from the
merged mapping, the rendered output preserves the token unchanged and the
diagnostic pass nevertheless reports `name` as unresolved, because after
sentinel restoration the literal `{{name}}` contains the substring
`{name}`. -/
theorem c10_escaped_token_reported (a b name : List Char) (data : Record)
    (ha : ∀ c ∈ a, (c ≠ '\x7b' ∧ c ≠ '\x7d' ∧ c ≠ '\x00') ∧ c ≠ '<')
    (hb : ∀ c ∈ b, (c ≠ '\x7b' ∧ c ≠ '\x7d' ∧ c ≠ '\x00') ∧ c ≠ '<')
    (hname : isIdentifier name = true)
    (hkey : (buildTemplateData data).any (fun kv => kv.1 = name) = false) :
    render_body (a ++ (S "\x7b\x7b" ++ (name ++ (S "\x7d\x7d" ++ b)))) data =
      a ++ (S "\x7b\x7b" ++ (name ++ (S "\x7d\x7d" ++ b))) ∧
    unresolvedPlaceholders
        (render_body (a ++ (S "\x7b\x7b" ++ (name ++ (S "\x7d\x7d" ++ b))))
          data)
        (buildTemplateData data) = [name] := by
  cases name with
  | nil => exact absurd hname (by simp [isIdentifier])
  | cons d nt =>
    have hparts : isIdentStart d = true ∧ ∀ x ∈ nt, isIdentChar x = true := by
      simpa [isIdentifier] using hname
    have hd : isIdentStart d = true := hparts.1
    have hnt : ∀ c ∈ nt, isIdentChar c = true := hparts.2
    have hnameAll : ∀ c ∈ d :: nt, isIdentChar c = true := by
      intro c hc
      rcases List.mem_cons.mp hc with h | h
      · exact h ▸ identStart_isChar hd
      · exact hnt c h
    have hren := render_body_escaped_token a b (d :: nt) data
      (fun c hc => ((ha c hc).1).1) (fun c hc => ((ha c hc).1).2.1)
      (fun c hc => ((ha c hc).1).2.2)
      (fun c hc => ((hb c hc).1).1) (fun c hc => ((hb c hc).1).2.1)
      (fun c hc => ((hb c hc).1).2.2)
      hnameAll
    refine ⟨hren, ?_⟩
    rw [hren]
    unfold unresolvedPlaceholders
    have hlt : ∀ c ∈ a ++ (S "\x7b\x7b" ++ ((d :: nt) ++ (S "\x7d\x7d" ++ b))),
        c ≠ '<' :=
      forall_mem_append (fun c hc => (ha c hc).2)
        (forall_mem_append (by decide)
          (forall_mem_append (identList_ne hnameAll (by decide))
            (forall_mem_append (by decide) (fun c hc => (hb c hc).2))))
    rw [stripStyle_id _ hlt]
    have hfp : findPlaceholders
        (a ++ (S "\x7b\x7b" ++ ((d :: nt) ++ (S "\x7d\x7d" ++ b)))) =
        [d :: nt] := by
      rw [findPlaceholders_pass a _ (fun c hc => ((ha c hc).1).1)]
      show findPlaceholders
        ('\x7b' :: ('\x7b' :: ((d :: nt) ++ ('\x7d' :: ('\x7d' :: b))))) = _
      rw [findPlaceholders_cons, if_pos rfl,
        identMatch_not_start _ (by decide), Option.elim_none,
        findPlaceholders_cons, if_pos rfl,
        identMatch_full hd hnt ('\x7d' :: b), Option.elim_some]
      rw [show findPlaceholders ('\x7d' :: b) = findPlaceholders b from by
        rw [findPlaceholders_cons, if_neg (by decide)]]
      rw [findPlaceholders_empty b (fun c hc => ((hb c hc).1).1)]
    rw [hfp, dedupKeep_single, List.filter_cons, if_pos (by rw [hkey]; rfl)]
    rfl

/-- Witness for C10 at a concrete template and record. -/
theorem c10_escaped_token_reported_witness :
    unresolvedPlaceholders
        (render_body
          (S "ab" ++ (S "\x7b\x7b" ++ (S "missing" ++ (S "\x7d\x7d" ++ S "cd"))))
          [(S "x", PyValue.str (S "1"))])
        (buildTemplateData [(S "x", PyValue.str (S "1"))]) =
      [S "missing"] :=
  (c10_escaped_token_reported (S "ab") (S "cd") (S "missing")
    [(S "x", PyValue.str (S "1"))] (by decide) (by decide) (by decide)
    (by decide)).2


/-! ### Claim C9 -/

/-- A text with a single brace site contains no double-brace sequence. -/
theorem containsSub_single_site {p : Char} {x rest : List Char}
    (hx : ∀ ch ∈ x, ch ≠ p) (hrest : ∀ ch ∈ rest, ch ≠ p) :
    containsSub (p :: (p :: ([] : List Char))) (x ++ (p :: rest)) = false := by
  rw [containsSub_pass p (p :: []) x _ hx]
  exact containsSub_cons_head (isPrefixOf_false_of_mem (by simp) hrest)
    (containsSub_false_of_mem (by simp) hrest)

/-- C9 counterexample: inside a style block the escaped `{{color}}`
textually contains the occurrence `{color}` with `color` a key of the
mapping, yet it is not replaced: the escaped braces are protected first,
so the rendered output is unchanged and never contains the value `red`. -/
theorem c9_escaped_in_style_counterexample :
    containsSub (S "\x7bcolor\x7d")
        (S "<style>\x7b\x7bcolor\x7d\x7d</style>") = true ∧
    render_body (S "<style>\x7b\x7bcolor\x7d\x7d</style>")
        [(S "color", PyValue.str (S "red"))] =
      S "<style>\x7b\x7bcolor\x7d\x7d</style>" ∧
    containsSub (S "red")
        (render_body (S "<style>\x7b\x7bcolor\x7d\x7d</style>")
          [(S "color", PyValue.str (S "red"))]) = false := by
  refine ⟨by decide, by decide, by decide⟩

/-- C9 (amended): the per-key substitution pass does not special-case
style blocks.  An unescaped `{color}` or `{color:format}` occurrence
inside a `<style>` block, for a mapping key `color`, is substituted with
the key's value; only the final diagnostic pass strips style-block
content, so an unknown `{foo}` inside a style block is left in the
rendered text but never reported as unresolved.  (Escaped double-brace
sequences inside a style block are protected and not substituted, as the
counterexample shows.)  Stated over brace-, NUL- and tag-free context
pieces `a`, `c`, `c'`, `b`, a brace-, NUL- and tag-free value `v` and a
brace-free format `f`. -/
theorem c9_substitution_inside_style (a c c' b v f : List Char)
    (ha : ∀ ch ∈ a, (ch ≠ '\x7b' ∧ ch ≠ '\x7d' ∧ ch ≠ '\x00') ∧ ch ≠ '<')
    (hc : ∀ ch ∈ c, (ch ≠ '\x7b' ∧ ch ≠ '\x7d' ∧ ch ≠ '\x00') ∧ ch ≠ '<')
    (hc' : ∀ ch ∈ c', (ch ≠ '\x7b' ∧ ch ≠ '\x7d' ∧ ch ≠ '\x00') ∧ ch ≠ '<')
    (hb : ∀ ch ∈ b, (ch ≠ '\x7b' ∧ ch ≠ '\x7d' ∧ ch ≠ '\x00') ∧ ch ≠ '<')
    (hv : ∀ ch ∈ v, (ch ≠ '\x7b' ∧ ch ≠ '\x7d' ∧ ch ≠ '\x00') ∧ ch ≠ '<')
    (hf : ∀ ch ∈ f, ch ≠ '\x7b' ∧ ch ≠ '\x7d') :
    render_body
        (a ++ (S "<style>" ++ (c ++ (S "\x7bcolor\x7d" ++
          (c' ++ (S "</style>" ++ b))))))
        [(S "color", PyValue.str v)] =
      a ++ (S "<style>" ++ (c ++ (v ++ (c' ++ (S "</style>" ++ b))))) ∧
    render_body
        (a ++ (S "<style>" ++ (c ++ (S "\x7bcolor:" ++ (f ++ (S "\x7d" ++
          (c' ++ (S "</style>" ++ b))))))))
        [(S "color", PyValue.str v)] =
      a ++ (S "<style>" ++ (c ++ (v ++ (c' ++ (S "</style>" ++ b))))) ∧
    render_body
        (a ++ (S "<style>" ++ (c ++ (S "\x7bfoo\x7d" ++
          (c' ++ (S "</style>" ++ b))))))
        [(S "color", PyValue.str v)] =
      a ++ (S "<style>" ++ (c ++ (S "\x7bfoo\x7d" ++
        (c' ++ (S "</style>" ++ b))))) ∧
    unresolvedPlaceholders
        (render_body
          (a ++ (S "<style>" ++ (c ++ (S "\x7bfoo\x7d" ++
            (c' ++ (S "</style>" ++ b))))))
          [(S "color", PyValue.str v)])
        (buildTemplateData [(S "color", PyValue.str v)]) = [] ∧
    containsSub (S "\x7bfoo\x7d")
        (render_body
          (a ++ (S "<style>" ++ (c ++ (S "\x7bfoo\x7d" ++
            (c' ++ (S "</style>" ++ b))))))
          [(S "color", PyValue.str v)]) = true := by
  have ha1 : ∀ ch ∈ a, ch ≠ '\x7b' := fun ch h => ((ha ch h).1).1
  have ha2 : ∀ ch ∈ a, ch ≠ '\x7d' := fun ch h => ((ha ch h).1).2.1
  have ha3 : ∀ ch ∈ a, ch ≠ '\x00' := fun ch h => ((ha ch h).1).2.2
  have ha4 : ∀ ch ∈ a, ch ≠ '<' := fun ch h => (ha ch h).2
  have hc1 : ∀ ch ∈ c, ch ≠ '\x7b' := fun ch h => ((hc ch h).1).1
  have hc2 : ∀ ch ∈ c, ch ≠ '\x7d' := fun ch h => ((hc ch h).1).2.1
  have hc3 : ∀ ch ∈ c, ch ≠ '\x00' := fun ch h => ((hc ch h).1).2.2
  have hc4 : ∀ ch ∈ c, ch ≠ '<' := fun ch h => (hc ch h).2
  have hc'1 : ∀ ch ∈ c', ch ≠ '\x7b' := fun ch h => ((hc' ch h).1).1
  have hc'2 : ∀ ch ∈ c', ch ≠ '\x7d' := fun ch h => ((hc' ch h).1).2.1
  have hc'3 : ∀ ch ∈ c', ch ≠ '\x00' := fun ch h => ((hc' ch h).1).2.2
  have hc'4 : ∀ ch ∈ c', ch ≠ '<' := fun ch h => (hc' ch h).2
  have hb1 : ∀ ch ∈ b, ch ≠ '\x7b' := fun ch h => ((hb ch h).1).1
  have hb2 : ∀ ch ∈ b, ch ≠ '\x7d' := fun ch h => ((hb ch h).1).2.1
  have hb3 : ∀ ch ∈ b, ch ≠ '\x00' := fun ch h => ((hb ch h).1).2.2
  have hb4 : ∀ ch ∈ b, ch ≠ '<' := fun ch h => (hb ch h).2
  have hv1 : ∀ ch ∈ v, ch ≠ '\x7b' := fun ch h => ((hv ch h).1).1
  have hv3 : ∀ ch ∈ v, ch ≠ '\x00' := fun ch h => ((hv ch h).1).2.2
  have hf1 : ∀ ch ∈ f, ch ≠ '\x7b' := fun ch h => (hf ch h).1
  have hf2 : ∀ ch ∈ f, ch ≠ '\x7d' := fun ch h => (hf ch h).2
  have htd : buildTemplateData [(S "color", PyValue.str v)] =
      [(S "color", v), (S "tax_row", []), (S "total_row", [])] := rfl
  -- the tail after the placeholder site
  have hY1 : ∀ ch ∈ c' ++ (S "</style>" ++ b), ch ≠ '\x7b' :=
    forall_mem_append hc'1 (forall_mem_append (by decide) hb1)
  have hY2 : ∀ ch ∈ c' ++ (S "</style>" ++ b), ch ≠ '\x7d' :=
    forall_mem_append hc'2 (forall_mem_append (by decide) hb2)
  have hY3 : ∀ ch ∈ c' ++ (S "</style>" ++ b), ch ≠ '\x00' :=
    forall_mem_append hc'3 (forall_mem_append (by decide) hb3)
  -- the rendered output of the first two cases, with its freedom facts
  have hOut1 : ∀ ch ∈ a ++ (S "<style>" ++ (c ++ (v ++ (c' ++ (S "</style>" ++ b))))),
      ch ≠ '\x7b' :=
    forall_mem_append ha1 (forall_mem_append (by decide)
      (forall_mem_append hc1 (forall_mem_append hv1 hY1)))
  have hOut3 : ∀ ch ∈ a ++ (S "<style>" ++ (c ++ (v ++ (c' ++ (S "</style>" ++ b))))),
      ch ≠ '\x00' :=
    forall_mem_append ha3 (forall_mem_append (by decide)
      (forall_mem_append hc3 (forall_mem_append hv3 hY3)))
  -- the unknown-key template is left unchanged by the whole rendering
  have hfoo : render_body
      (a ++ (S "<style>" ++ (c ++ (S "\x7bfoo\x7d" ++
        (c' ++ (S "</style>" ++ b))))))
      [(S "color", PyValue.str v)] =
      a ++ (S "<style>" ++ (c ++ (S "\x7bfoo\x7d" ++
        (c' ++ (S "</style>" ++ b))))) := by
    have hfoo3 : ∀ ch ∈ a ++ (S "<style>" ++ (c ++ (S "\x7bfoo\x7d" ++
        (c' ++ (S "</style>" ++ b))))), ch ≠ '\x00' :=
      forall_mem_append ha3 (forall_mem_append (by decide)
        (forall_mem_append hc3 (forall_mem_append (by decide) hY3)))
    apply render_body_no_escapes ?_ ?_ ?_ hfoo3
    · show containsSub ('\x7b' :: ('\x7b' :: [])) _ = false
      have hsh : a ++ (S "<style>" ++ (c ++ (S "\x7bfoo\x7d" ++
          (c' ++ (S "</style>" ++ b))))) =
          (a ++ (S "<style>" ++ c)) ++
            ('\x7b' :: (S "foo" ++ ('\x7d' :: (c' ++ (S "</style>" ++ b))))) := by
        simp only [List.append_assoc]
        rfl
      rw [hsh]
      exact containsSub_single_site
        (forall_mem_append ha1 (forall_mem_append (by decide) hc1))
        (forall_mem_append (by decide)
          (forall_mem_cons_ne (by decide) hY1))
    · show containsSub ('\x7d' :: ('\x7d' :: [])) _ = false
      have hsh : a ++ (S "<style>" ++ (c ++ (S "\x7bfoo\x7d" ++
          (c' ++ (S "</style>" ++ b))))) =
          (a ++ (S "<style>" ++ (c ++ ('\x7b' :: S "foo")))) ++
            ('\x7d' :: (c' ++ (S "</style>" ++ b))) := by
        simp only [List.append_assoc]
        rfl
      rw [hsh]
      exact containsSub_single_site
        (forall_mem_append ha2 (forall_mem_append (by decide)
          (forall_mem_append hc2 (forall_mem_cons_ne (by decide) (by decide)))))
        hY2
    · rw [htd, applySubsts_cons]
      have hpass : ∀ (k : List Char) (w : List Char),
          k.isPrefixOf (S "foo" ++ ('\x7d' :: (c' ++ (S "</style>" ++ b)))) =
            false →
          substKey k w
            (a ++ (S "<style>" ++ (c ++ (S "\x7bfoo\x7d" ++
              (c' ++ (S "</style>" ++ b)))))) =
          a ++ (S "<style>" ++ (c ++ (S "\x7bfoo\x7d" ++
            (c' ++ (S "</style>" ++ b))))) := by
        intro k w hk
        rw [substKey_pass k w a _ ha1,
          substKey_pass k w (S "<style>") _ (by decide),
          substKey_pass k w c _ hc1]
        have hsite : S "\x7bfoo\x7d" ++ (c' ++ (S "</style>" ++ b)) =
            '\x7b' :: (S "foo" ++ ('\x7d' :: (c' ++ (S "</style>" ++ b)))) := rfl
        rw [hsite, substKey_nomatch w (keyMatch_none_of_not_isPrefixOf hk),
          substKey_id _ _ _ (forall_mem_append (by decide)
            (forall_mem_cons_ne (by decide) hY1))]
      rw [hpass (S "color") v
          (isPrefixOf_cons_ne 'c' _ _ (by decide)),
        applySubsts_cons,
        hpass (S "tax_row") []
          (isPrefixOf_cons_ne 't' _ _ (by decide)),
        applySubsts_cons,
        hpass (S "total_row") []
          (isPrefixOf_cons_ne 't' _ _ (by decide))]
      rfl
  refine ⟨?_, ?_, hfoo, ?_, ?_⟩
  · -- plain {color} inside the style block is substituted
    apply render_body_no_escapes ?_ ?_ ?_ hOut3
    · show containsSub ('\x7b' :: ('\x7b' :: [])) _ = false
      have hsh : a ++ (S "<style>" ++ (c ++ (S "\x7bcolor\x7d" ++
          (c' ++ (S "</style>" ++ b))))) =
          (a ++ (S "<style>" ++ c)) ++
            ('\x7b' :: (S "color" ++ ('\x7d' :: (c' ++ (S "</style>" ++ b))))) := by
        simp only [List.append_assoc]
        rfl
      rw [hsh]
      exact containsSub_single_site
        (forall_mem_append ha1 (forall_mem_append (by decide) hc1))
        (forall_mem_append (by decide)
          (forall_mem_cons_ne (by decide) hY1))
    · show containsSub ('\x7d' :: ('\x7d' :: [])) _ = false
      have hsh : a ++ (S "<style>" ++ (c ++ (S "\x7bcolor\x7d" ++
          (c' ++ (S "</style>" ++ b))))) =
          (a ++ (S "<style>" ++ (c ++ ('\x7b' :: S "color")))) ++
            ('\x7d' :: (c' ++ (S "</style>" ++ b))) := by
        simp only [List.append_assoc]
        rfl
      rw [hsh]
      exact containsSub_single_site
        (forall_mem_append ha2 (forall_mem_append (by decide)
          (forall_mem_append hc2 (forall_mem_cons_ne (by decide) (by decide)))))
        hY2
    · rw [htd, applySubsts_cons]
      have hsub : substKey (S "color") v
          (a ++ (S "<style>" ++ (c ++ (S "\x7bcolor\x7d" ++
            (c' ++ (S "</style>" ++ b)))))) =
          a ++ (S "<style>" ++ (c ++ (v ++ (c' ++ (S "</style>" ++ b))))) := by
        rw [substKey_pass (S "color") v a _ ha1,
          substKey_pass (S "color") v (S "<style>") _ (by decide),
          substKey_pass (S "color") v c _ hc1]
        have hsite : S "\x7bcolor\x7d" ++ (c' ++ (S "</style>" ++ b)) =
            '\x7b' :: (S "color" ++ ('\x7d' ::
              (c' ++ (S "</style>" ++ b)))) := rfl
        rw [hsite, substKey_match v (keyMatch_exact (S "color") _),
          substKey_id _ _ _ hY1]
      rw [hsub, applySubsts_cons, substKey_id _ _ _ hOut1,
        applySubsts_cons, substKey_id _ _ _ hOut1]
      rfl
  · -- {color:format} inside the style block is substituted too
    apply render_body_no_escapes ?_ ?_ ?_ hOut3
    · show containsSub ('\x7b' :: ('\x7b' :: [])) _ = false
      have hsh : a ++ (S "<style>" ++ (c ++ (S "\x7bcolor:" ++ (f ++ (S "\x7d" ++
          (c' ++ (S "</style>" ++ b))))))) =
          (a ++ (S "<style>" ++ c)) ++
            ('\x7b' :: (S "color:" ++ (f ++ ('\x7d' ::
              (c' ++ (S "</style>" ++ b)))))) := by
        simp only [List.append_assoc]
        rfl
      rw [hsh]
      exact containsSub_single_site
        (forall_mem_append ha1 (forall_mem_append (by decide) hc1))
        (forall_mem_append (by decide)
          (forall_mem_append hf1 (forall_mem_cons_ne (by decide) hY1)))
    · show containsSub ('\x7d' :: ('\x7d' :: [])) _ = false
      have hsh : a ++ (S "<style>" ++ (c ++ (S "\x7bcolor:" ++ (f ++ (S "\x7d" ++
          (c' ++ (S "</style>" ++ b))))))) =
          (a ++ (S "<style>" ++ (c ++ ('\x7b' :: (S "color:" ++ f))))) ++
            ('\x7d' :: (c' ++ (S "</style>" ++ b))) := by
        simp only [List.append_assoc]
        rfl
      rw [hsh]
      exact containsSub_single_site
        (forall_mem_append ha2 (forall_mem_append (by decide)
          (forall_mem_append hc2 (forall_mem_cons_ne (by decide)
            (forall_mem_append (by decide) hf2)))))
        hY2
    · rw [htd, applySubsts_cons]
      have hsub : substKey (S "color") v
          (a ++ (S "<style>" ++ (c ++ (S "\x7bcolor:" ++ (f ++ (S "\x7d" ++
            (c' ++ (S "</style>" ++ b)))))))) =
          a ++ (S "<style>" ++ (c ++ (v ++ (c' ++ (S "</style>" ++ b))))) := by
        rw [substKey_pass (S "color") v a _ ha1,
          substKey_pass (S "color") v (S "<style>") _ (by decide),
          substKey_pass (S "color") v c _ hc1]
        have hsite : S "\x7bcolor:" ++ (f ++ (S "\x7d" ++
            (c' ++ (S "</style>" ++ b)))) =
            '\x7b' :: (S "color" ++ (':' :: (f ++ ('\x7d' ::
              (c' ++ (S "</style>" ++ b)))))) := rfl
        rw [hsite, substKey_match v (keyMatch_fmt (S "color") f _ hf2),
          substKey_id _ _ _ hY1]
      rw [hsub, applySubsts_cons, substKey_id _ _ _ hOut1,
        applySubsts_cons, substKey_id _ _ _ hOut1]
      rfl
  · -- the unknown {foo} inside the style block is not reported
    rw [hfoo]
    simp only [unresolvedPlaceholders]
    have hstrip : stripStyle
        (a ++ (S "<style>" ++ (c ++ (S "\x7bfoo\x7d" ++
          (c' ++ (S "</style>" ++ b)))))) = a ++ b := by
      rw [stripStyle_pass a _ ha4]
      have hsh : S "<style>" ++ (c ++ (S "\x7bfoo\x7d" ++
          (c' ++ (S "</style>" ++ b)))) =
          S "<style>" ++ ((c ++ (S "\x7bfoo\x7d" ++ c')) ++
            (S "</style>" ++ b)) := by
        simp only [List.append_assoc]
      rw [hsh, stripStyle_block (forall_mem_append hc4
          (forall_mem_append (by decide) hc'4)),
        stripStyle_id b hb4]
    rw [hstrip, findPlaceholders_empty _ (forall_mem_append ha1 hb1)]
    rfl
  · -- yet the raw placeholder text survives in the rendered output
    rw [hfoo]
    have hsh : a ++ (S "<style>" ++ (c ++ (S "\x7bfoo\x7d" ++
        (c' ++ (S "</style>" ++ b))))) =
        (a ++ (S "<style>" ++ c)) ++
          (S "\x7bfoo\x7d" ++ (c' ++ (S "</style>" ++ b))) := by
      simp only [List.append_assoc]
    rw [hsh]
    exact containsSub_here _ _ _

/-- Witness for C9 at concrete inputs: `a = "A"`, `c = "h1 "`,
`c' = " x"`, `b = "B"`, value `red`, format `s`. -/
theorem c9_substitution_inside_style_witness :
    render_body (S "A<style>h1 \x7bcolor\x7d x</style>B")
        [(S "color", PyValue.str (S "red"))] =
      S "A<style>h1 red x</style>B" ∧
    render_body (S "A<style>h1 \x7bcolor:s\x7d x</style>B")
        [(S "color", PyValue.str (S "red"))] =
      S "A<style>h1 red x</style>B" ∧
    render_body (S "A<style>h1 \x7bfoo\x7d x</style>B")
        [(S "color", PyValue.str (S "red"))] =
      S "A<style>h1 \x7bfoo\x7d x</style>B" ∧
    unresolvedPlaceholders
        (render_body (S "A<style>h1 \x7bfoo\x7d x</style>B")
          [(S "color", PyValue.str (S "red"))])
        (buildTemplateData [(S "color", PyValue.str (S "red"))]) = [] ∧
    containsSub (S "\x7bfoo\x7d")
        (render_body (S "A<style>h1 \x7bfoo\x7d x</style>B")
          [(S "color", PyValue.str (S "red"))]) = true := by
  have h := c9_substitution_inside_style (S "A") (S "h1 ") (S " x") (S "B")
    (S "red") (S "s") (by decide) (by decide) (by decide) (by decide)
    (by decide) (by decide)
  exact h
